import Mathlib

/-!
# ArchiveBox: the single-page archive task orchestrator

A shallow embedding of `archivebox/extractors/example_js_extractor.js`:

* `botArchiveTask` (admission, session setup, the three best-effort batches,
  navigation, behaviour emulation, capture, wrap-up and the quality gate),
* `extract` (the screen-recorder controller driven by page lifecycle signals).

Modelling conventions.

* A JavaScript string that the code slices or splits (`url`, `data`) is a list of
  UTF-16 code units (`JSString`); console and exception texts are `String`.
* `ALREADY_ARCHIVED` is a `Finset JSString`; `URL_SCHEMES_IGNORED` and
  `TASKS_PER_RUN_LIMIT` are not declared in the file and are parameters (`Config`).
* Every collaborator the code awaits or hands to `Promise.allSettled` is an
  asynchronous function: invoking it yields a promise that settles as fulfilled
  or rejected (`Settled`).  What each one does is fixed by a `World`.
* An execution is observed as the ordered list of collaborator invocations and
  console lines it makes (`Event`) together with the way it ends (`Ending`).
* The outcome of a promise is observed where the code awaits it.  Two promises are kept
  pending across awaits before a handler is attached to them (`startrecording_promise`,
  lines 170-173, and `saveScreenrecording_promise`, lines 211-239): the world says during
  which of these awaits such a promise settles, if it settles that early, and whether the
  host ends the process when a promise without a handler rejects.
-/

namespace ArchiveBox

/-! ## Strings, the registry, configuration -/

/-- A JavaScript string as its sequence of UTF-16 code units. -/
abbrev JSString := List Nat

/-- The `ALREADY_ARCHIVED` set. -/
abbrev Registry := Finset JSString

/-- Constants used by `botArchiveTask` that are declared outside the file. -/
structure Config where
  URL_SCHEMES_IGNORED : List JSString
  TASKS_PER_RUN_LIMIT : Nat

/-- The expression `url.split(':')[0]`: the text before the first `':'` (code unit 58),
the whole string when there is none. -/
def scheme (url : JSString) : JSString := url.takeWhile (fun c => c != 58)

/-- The expression `url.slice(0, 4096)`. -/
def sliceKey (url : JSString) : JSString := url.take 4096

/-- The statement `url = url || data`: the empty string is falsy. -/
def effectiveUrl (url data : JSString) : JSString := if url = [] then data else url

/-! ## Collaborators -/

/-- The external functions `botArchiveTask` invokes, in the order of the source. -/
inductive Fn
  -- session setup
  | pageBrowser | createCDPSession | getChromeExtensionsFromCache | browserVersion
  | setupSnapshotDir | setupSnapshotDB
  -- page preparation batch
  | startMetadataRecording | setupURLRewriting | setupModalAutoClosing
  | loadCloudflareCookie | startResponseSaving | saveYTDLP | saveGALLERYDL
  -- navigation and post-load settling
  | startScreenrecording | pageGoto | bringToFront | waitForNetworkIdle | waitForResponse
  -- behaviour emulation
  | jiggleMouse | solveCaptchas | blockRedirects | scrollDown | submitForm
  -- metadata freeze and synchronous capture
  | stopMetadataRecording | saveScreenrecording | saveScreenshot | savePDF
  -- parallel extraction
  | inlineShadowDOM
  | saveTitle | saveSEO | saveFavicon | saveSSL | saveRequests | saveRedirects
  | saveHeaders | saveRaw | saveDOM | saveBodyText | saveReadability
  | saveAccessibility | saveOutlinks | saveAIQualityAssuranceResult
  -- background extraction and wrap-up
  | saveSinglefile | saveMetrics | gotoAboutBlank | pageClose
  | symlinkBestSnapshotResults | blockUntilExistsGif | spawnImgcat
  -- quality gate
  | readFileAIQA
  deriving DecidableEq

/-- How a promise settles. -/
inductive Settled
  | fulfilled
  | rejected (reason : String)
  deriving DecidableEq

/-- What `page.goto` / `page.waitForResponse` produce: a rejection, or a response handle
(`some status`) or `null` (`none`). -/
inductive NavResult
  | rejected (reason : String)
  | response (status : Option Nat)
  deriving DecidableEq

/-- The awaits that `botArchiveTask` reaches while it holds a promise that has no handler
yet: line 171 with `startrecording_promise` pending, lines 212, 213, 218 and 219-236 with
`saveScreenrecording_promise` pending. -/
inductive AwaitPoint
  | pageGoto
  | saveScreenshot
  | savePDF
  | inlineShadowDOM
  | extractionBatch
  deriving DecidableEq

/-- The QA artifact read back by the quality gate. `pct_visible` is a JavaScript number;
every finite number is a rational and `<` on finite numbers is `<` on rationals. -/
structure QAResult where
  pct_visible : ℚ
  warnings : List String
  error_text : Option String
  main_content_title : Option String
  description : Option String
  main_content_author : Option String
  main_content_date : Option String

/-- The behaviour of everything outside `botArchiveTask` during one call. -/
structure World where
  /-- how the promise returned by each collaborator settles -/
  outcome : Fn → Settled
  /-- result of `page.goto(url, ...)` -/
  goto : NavResult
  /-- result of `page.waitForResponse(() => true)` -/
  waitForResponse : NavResult
  /-- result of reading and parsing the QA artifact -/
  qa : Except String QAResult
  /-- text of a number that is not a safe integer (`Number::toString`) -/
  fractionToString : ℚ → String
  /-- whether the host ends the process when a promise that has no handler rejects -/
  unhandledRejectionsFatal : Bool
  /-- the await during which the promise of a collaborator settles, when it settles before
  the code attaches a handler to it -/
  settlesDuring : Fn → Option AwaitPoint

/-! ## Observations -/

/-- The batches whose partial failures are reported on the console. -/
inductive Batch
  | pageSetup | pageLoad | archiving | wrapUp
  deriving DecidableEq

/-- Console lines and collaborator invocations, in program order. -/
inductive Event
  | invoke (f : Fn)
  | warnQuota
  | banner (n : Nat)
  | logStartingSetup
  | logNavigation (url : JSString)
  | warnPartialFailures (b : Batch) (rejected : List String)
  | errorPageSetup (err : String)
  | errorPageLoad (err : String)
  | logFinished
  | logResetting
  | logError (err : String)
  | logBlank
  | warnGifDisplay (err : String)
  | logSuccess (line : String)
  | logSummary (title author date : String)
  deriving DecidableEq

/-- Values `botArchiveTask` returns. -/
inductive RetVal
  | null | undefined | true
  deriving DecidableEq

/-- How a call of `botArchiveTask` ends: it returns, it throws, it calls `process.exit`, or
the host ends the process on an unhandled rejection. -/
inductive Ending
  | returned (v : RetVal)
  | threw (reason : String)
  | exited (code : Nat)
  | crashed (reason : String)
  deriving DecidableEq

/-- Control flow of a block of statements. -/
inductive Flow (α : Type)
  | next (a : α)
  | ret (v : RetVal)
  | raise (reason : String)
  | crash (reason : String)
  deriving DecidableEq

/-- A block of statements run to its end: what it did and how control leaves it. -/
structure Run (α : Type) where
  trace : List Event
  flow : Flow α

namespace Run

/-- Fall through with a value. -/
def unit {α : Type} (a : α) : Run α := ⟨[], .next a⟩

/-- Sequencing: the second block runs only when the first falls through. -/
def andThen {α β : Type} (m : Run α) (k : α → Run β) : Run β :=
  match m.flow with
  | .next a => ⟨m.trace ++ (k a).trace, (k a).flow⟩
  | .ret v => ⟨m.trace, .ret v⟩
  | .raise e => ⟨m.trace, .raise e⟩
  | .crash e => ⟨m.trace, .crash e⟩

/-- The statement `try { body } catch (err) { handler }`. -/
def tryCatch {α : Type} (body : Run α) (handler : String → Run α) : Run α :=
  match body.flow with
  | .raise e => ⟨body.trace ++ (handler e).trace, (handler e).flow⟩
  | _ => body

end Run

instance : Monad Run where
  pure := Run.unit
  bind := Run.andThen

/-- One observable step. -/
def emit (e : Event) : Run Unit := ⟨[e], .next ()⟩

/-- The statement `return v`. -/
def returnValue {α : Type} (v : RetVal) : Run α := ⟨[], .ret v⟩

/-- The statement `throw reason`. -/
def throwReason {α : Type} (reason : String) : Run α := ⟨[], .raise reason⟩

/-- The host ends the process. -/
def endProcess {α : Type} (reason : String) : Run α := ⟨[], .crash reason⟩

/-- Invoking an asynchronous collaborator: the call is observed and a promise comes back. -/
def invoke (w : World) (f : Fn) : Run Settled := ⟨[.invoke f], .next (w.outcome f)⟩

/-- The expression `await p` on a settled promise. -/
def awaitSettled (p : Settled) : Run Unit :=
  match p with
  | .fulfilled => ⟨[], .next ()⟩
  | .rejected reason => ⟨[], .raise reason⟩

/-- The expression `await f(page, page_state)`. -/
def call (w : World) (f : Fn) : Run Unit := do
  let p ← invoke w f
  awaitSettled p

/-- The reason with which the promise `pending` of collaborator `f`, which has no handler
yet, ends the process while the task is suspended at `point`: the promise rejects during that
await and the host treats unhandled rejections as fatal. -/
def rejectsUnhandled (w : World) (f : Fn) (pending : Settled) (point : AwaitPoint) :
    Option String :=
  match pending with
  | .rejected reason =>
    if w.unhandledRejectionsFatal = true ∧ w.settlesDuring f = some point then some reason
    else none
  | .fulfilled => none

/-- The task is suspended at `point` while the promise of `f` is pending without a handler. -/
def suspendWith (w : World) (f : Fn) (pending : Settled) (point : AwaitPoint) : Run Unit :=
  match rejectsUnhandled w f pending point with
  | some reason => endProcess reason
  | none => pure ()

/-- The expression `await g(page, page_state)` evaluated while the promise of `f` is pending
without a handler. -/
def callHolding (w : World) (g : Fn) (f : Fn) (pending : Settled) (point : AwaitPoint) :
    Run Unit := do
  let p ← invoke w g
  suspendWith w f pending point
  awaitSettled p

/-- The expression `await Promise.allSettled(promises)`: one outcome per promise, in the
order of the array; it never rejects. -/
def allSettled (promises : List Settled) : Run (List Settled) := ⟨[], .next promises⟩

/-- The expression `results.filter(r => r.status === 'rejected').map(r => r.reason)`. -/
def rejectedReasons (results : List Settled) : List String :=
  (results.filter (fun r => match r with | .rejected _ => true | .fulfilled => false)).map
    (fun r => match r with | .rejected reason => reason | .fulfilled => "")

/-- The statement `if (rejected.length) console.warn(..., rejected)`. -/
def warnIfRejected (b : Batch) (rejected : List String) : Run Unit :=
  if rejected.length ≠ 0 then emit (.warnPartialFailures b rejected) else pure ()

/-- Invoking the collaborators of an array literal from left to right. -/
def invokeAll (w : World) : List Fn → Run (List Settled)
  | [] => pure []
  | f :: fs => do
    let p ← invoke w f
    let ps ← invokeAll w fs
    pure (p :: ps)

/-! ## `botArchiveTask` -/

/-- The expression `a || b` on an optional string: `undefined` and `''` are falsy. -/
def orElse (a : Option String) (b : String) : String :=
  match a with
  | some s => if s = "" then b else s
  | none => b

/-- Template-literal text of a number: a safe integer (magnitude at most `2 ^ 53`) prints
in decimal. -/
def numberToString (w : World) (q : ℚ) : String :=
  if q.den = 1 ∧ q.num.natAbs ≤ 9007199254740992 then toString q.num
  else w.fractionToString q

/-- The value thrown on a rate-limit response. -/
def rateLimitMessage : String :=
  "[⚠️] Got 429 rate-limit response, skipping this URL for now..."

/-- The value thrown by `assert(page_state.main_response)` on a falsy response. -/
def assertionFailure : String :=
  "AssertionError [ERR_ASSERTION]: The expression evaluated to a falsy value"

/-- The value thrown by the quality gate. -/
def qualityFailureMessage (w : World) (qa : QAResult) : String :=
  "[❌] Task completed with problems, got AI QA score of " ++ numberToString w qa.pct_visible
    ++ "%! " ++ String.intercalate ", " qa.warnings ++ " " ++ orElse qa.error_text ""

/-- First console line of a passed quality gate. -/
def successLine (w : World) (qa : QAResult) : String :=
  "[💫] Task completed succesfully: " ++ numberToString w qa.pct_visible ++ "%    "
    ++ String.intercalate ", " qa.warnings

/-- Lines 103-114: browser handles, snapshot directory and database. -/
def sessionSetup (w : World) : Run Unit := do
  call w .pageBrowser
  call w .createCDPSession
  call w .getChromeExtensionsFromCache
  call w .browserVersion
  emit (.banner 0)
  call w .setupSnapshotDir
  call w .setupSnapshotDB
  emit (.banner 1)
  emit .logStartingSetup

/-- The array of lines 145-152. -/
def pageSetupUnits : List Fn :=
  [.startMetadataRecording, .setupURLRewriting, .setupModalAutoClosing,
   .loadCloudflareCookie, .startResponseSaving, .saveYTDLP, .saveGALLERYDL]

/-- Lines 141-164: the page preparation batch. -/
def pagePreparation (w : World) : Run Unit :=
  Run.tryCatch
    (do
      let promises ← invokeAll w pageSetupUnits
      let results ← allSettled promises
      let rejected := rejectedReasons results
      warnIfRejected .pageSetup rejected)
    (fun err => do
      emit (.errorPageSetup err)
      returnValue .undefined)

/-- The promise of `page.goto(...)` / `page.waitForResponse(...)` settles. -/
def settleNav (r : NavResult) : Run (Option Nat) :=
  match r with
  | .rejected reason => throwReason reason
  | .response status => pure status

/-- The expression `await page.waitForResponse(...)`. -/
def awaitNav (f : Fn) (r : NavResult) : Run (Option Nat) := do
  emit (.invoke f)
  settleNav r

/-- Lines 172-185: the post-load settling batch. -/
def postLoadSettling (w : World) (startrecording_promise : Settled) : Run Unit :=
  Run.tryCatch
    (do
      let p1 ← invoke w .bringToFront
      let p2 ← invoke w .waitForNetworkIdle
      let results ← allSettled [startrecording_promise, p1, p2]
      let rejected := rejectedReasons results
      warnIfRejected .pageLoad rejected)
    (fun err => do
      emit (.errorPageLoad err)
      returnValue .undefined)

/-- Lines 187-193: the primary response is awaited when missing, asserted, and a 429 raises. -/
def checkResponse (w : World) (main_response : Option Nat) : Run Unit := do
  let main_response ←
    (match main_response with
     | none => awaitNav .waitForResponse w.waitForResponse
     | some status => pure (some status))
  match main_response with
  | none => throwReason assertionFailure
  | some status => if status = 429 then throwReason rateLimitMessage else pure ()

/-- Lines 167-193: navigation with the recording start scheduled alongside. -/
def navigation (w : World) (url : JSString) : Run Unit := do
  emit (.banner 2)
  emit (.logNavigation url)
  let startrecording_promise ← invoke w .startScreenrecording
  emit (.invoke .pageGoto)
  suspendWith w .startScreenrecording startrecording_promise .pageGoto
  let main_response ← settleNav w.goto
  postLoadSettling w startrecording_promise
  checkResponse w main_response

/-- Lines 197-202: the behaviour emulation steps, one after another. -/
def behaviorEmulation (w : World) : Run Unit := do
  call w .jiggleMouse
  call w .solveCaptchas
  call w .blockRedirects
  call w .scrollDown
  call w .submitForm

/-- The array of lines 220-235. -/
def extractionUnits : List Fn :=
  [.saveTitle, .saveSEO, .saveFavicon, .saveSSL, .saveRequests, .saveRedirects,
   .saveHeaders, .saveRaw, .saveDOM, .saveBodyText, .saveReadability,
   .saveAccessibility, .saveOutlinks, .saveAIQualityAssuranceResult]

/-- Lines 290-299: the quality gate on the parsed artifact. The summary line is recorded by
the three values it is built from (the title before its cut to 80 units). -/
def qualityGate (w : World) (qa : QAResult) : Run Unit :=
  if qa.pct_visible < 50 then
    throwReason (qualityFailureMessage w qa)
  else do
    emit (.logSuccess (successLine w qa))
    emit (.logSummary
      (orElse qa.main_content_title (orElse qa.description "No title/description detected"))
      (orElse qa.main_content_author "") (orElse qa.main_content_date ""))
    returnValue .true

/-- Lines 205-208: the metadata freeze. -/
def metadataFreeze (w : World) : Run Unit := do
  emit (.banner 3)
  call w .stopMetadataRecording

/-- Lines 211-213: the recording is handed off without being awaited, then the screenshot
and the PDF are taken; the pending promise is the result. -/
def synchronousCapture (w : World) : Run Settled := do
  let saveScreenrecording_promise ← invoke w .saveScreenrecording
  callHolding w .saveScreenshot .saveScreenrecording saveScreenrecording_promise .saveScreenshot
  callHolding w .savePDF .saveScreenrecording saveScreenrecording_promise .savePDF
  pure saveScreenrecording_promise

/-- Lines 219-236: the extraction units are launched and all of them are awaited. -/
def extractionBatch (w : World) (saveScreenrecording_promise : Settled) :
    Run (List Settled) := do
  let promises ← invokeAll w extractionUnits
  suspendWith w .saveScreenrecording saveScreenrecording_promise .extractionBatch
  allSettled promises

/-- Lines 215-236: shadow DOM inlining, then the parallel extraction batch. -/
def parallelExtraction (w : World) (saveScreenrecording_promise : Settled) :
    Run (List Settled) := do
  emit (.banner 4)
  callHolding w .inlineShadowDOM .saveScreenrecording saveScreenrecording_promise
    .inlineShadowDOM
  extractionBatch w saveScreenrecording_promise

/-- Lines 239-274: the background batch, the metrics, the report of the extraction batch
and the page reset. -/
def backgroundExtraction (w : World) (saveScreenrecording_promise : Settled)
    (results : List Settled) : Run Unit := do
  let singlefile_promise ← invoke w .saveSinglefile
  call w .saveMetrics
  let rejected := rejectedReasons results
  warnIfRejected .archiving rejected
  emit .logFinished
  Run.tryCatch
    (do
      let bg_results ← allSettled [saveScreenrecording_promise, singlefile_promise]
      let rejected := rejectedReasons bg_results
      warnIfRejected .wrapUp rejected
      emit .logResetting
      call w .gotoAboutBlank
      call w .pageClose)
    (fun err => emit (.logError err))

/-- Lines 276-288: symlinks and the display of the recording (`spawn` throwing is the
rejected outcome of `spawnImgcat`). -/
def wrapUp (w : World) : Run Unit := do
  call w .symlinkBestSnapshotResults
  emit .logBlank
  Run.tryCatch
    (do
      call w .blockUntilExistsGif
      call w .spawnImgcat)
    (fun err => do
      emit (.warnGifDisplay err)
      emit .logBlank)

/-- Lines 290-299: the QA artifact is read back and judged. -/
def verdict (w : World) : Run Unit := do
  emit (.invoke .readFileAIQA)
  match w.qa with
  | .error reason => throwReason reason
  | .ok qa => qualityGate w qa

/-- Lines 103-299: the task once admitted. -/
def archiveAdmitted (w : World) (url : JSString) : Run Unit := do
  sessionSetup w
  pagePreparation w
  navigation w url
  behaviorEmulation w
  metadataFreeze w
  let saveScreenrecording_promise ← synchronousCapture w
  let results ← parallelExtraction w saveScreenrecording_promise
  backgroundExtraction w saveScreenrecording_promise results
  wrapUp w
  verdict w

/-- What the caller of an `async function` body observes. -/
def Flow.toEnding (f : Flow Unit) : Ending :=
  match f with
  | .next _ => .returned .undefined
  | .ret v => .returned v
  | .raise reason => .threw reason
  | .crash reason => .crashed reason

/-- One call of `botArchiveTask` seen from outside. -/
structure Result where
  registry : Registry
  trace : List Event
  ending : Ending

/-- Line 92: `URL_SCHEMES_IGNORED.includes(url.split(':')[0])`. -/
def is_unarchivable_url (cfg : Config) (url : JSString) : Bool :=
  decide (scheme url ∈ cfg.URL_SCHEMES_IGNORED)

/-- Line 93: `ALREADY_ARCHIVED.has(url.slice(0, 4096))`. -/
def is_already_archived (reg : Registry) (url : JSString) : Bool :=
  decide (sliceKey url ∈ reg)

/-- The function `botArchiveTask({page, data, url=''})`, with `ALREADY_ARCHIVED` threaded
through as `reg`. -/
def botArchiveTask (cfg : Config) (reg : Registry) (w : World) (url data : JSString) : Result :=
  let url := effectiveUrl url data
  if is_unarchivable_url cfg url || is_already_archived reg url then
    ⟨reg, [], .returned .null⟩
  else
    let reg := insert (sliceKey url) reg
    if reg.card > cfg.TASKS_PER_RUN_LIMIT then
      ⟨reg, [.warnQuota, .warnQuota], .exited 21⟩
    else
      let body := archiveAdmitted w url
      ⟨reg, body.trace, body.flow.toEnding⟩

/-- A world in which every collaborator succeeds and the page answers with `status`. -/
def calmWorld (status : Nat) (pct : ℚ) : World where
  outcome := fun _ => .fulfilled
  goto := .response (some status)
  waitForResponse := .response (some status)
  qa := .ok ⟨pct, [], none, none, none, none, none⟩
  fractionToString := fun _ => "?"
  unhandledRejectionsFatal := true
  settlesDuring := fun _ => none

/-! ## `extract`: the screen-recorder controller -/

/-- Signals emitted on the page. -/
inductive Signal
  | setup
  | BEHAVIORS_STARTED
  | BEHAVIORS_FINISHED
  | other (name : String)
  deriving DecidableEq

/-- What the collaborators of the two listeners do while one signal is handled. -/
structure HandlerWorld where
  /-- the exception of `new PuppeteerScreenRecorder(...)`, if it throws -/
  construct : Option String
  /-- promise of `recorder.start(output_path)` -/
  start : Settled
  /-- promise of `archivebox.savePageState(page, {recorder})` -/
  savePageState : Settled
  /-- promise of `recorder.stop()` -/
  stop : Settled
  /-- the exception of `child_process.spawn(...)`, if it throws -/
  spawn : Option String
  /-- promise of `blockUntilExists(gif, ...)` -/
  blockUntilExists : Settled
  /-- whether the free variable `duration` of line 80 is bound -/
  durationBound : Bool

/-- A signal together with the behaviour of the collaborators while it is handled. -/
structure Delivery where
  signal : Signal
  world : HandlerWorld

/-- What the listeners do, in order; recorder objects are numbered by creation. -/
inductive RecAction
  | construct (id : Nat)
  | start (id : Nat)
  | savePageState (id : Nat)
  | stop (id : Nat)
  | spawnTranscoder
  | pollGif
  | logSaved
  | logFailed (err : String)
  deriving DecidableEq

/-- The `await` at which `extract` is suspended. -/
inductive Stage
  | raised
  | awaitingSetup
  | awaitingBehaviorsStarted
  | awaitingBehaviorsFinished
  | returned
  deriving DecidableEq

/-- State of one `extract` call: its suspension point, the variable `recorder`
(`none` is `null`), the number of recorder objects created, and what was done. -/
structure Controller where
  stage : Stage
  recorder : Option Nat
  created : Nat
  actions : List RecAction
  deriving DecidableEq

/-- Lines 12-24 and 48: configuration and page are awaited, the `'setup'` listener is
registered and `extract` waits for `'setup'`. A rejection raises before any listener exists. -/
def extractStart (getScopeConfig getPuppeteerPage : Settled) : Controller :=
  match getScopeConfig, getPuppeteerPage with
  | .fulfilled, .fulfilled => ⟨.awaitingSetup, none, 0, []⟩
  | _, _ => ⟨.raised, none, 0, []⟩

/-- Lines 24-47: the `'setup'` listener, with the way its promise settles. -/
def onSetup (hw : HandlerWorld) (c : Controller) : Controller × Settled :=
  match hw.construct with
  | some err => (c, .rejected err)
  | none =>
    let id := c.created
    let c := { c with recorder := some id, created := id + 1,
                      actions := c.actions ++ [.construct id, .start id] }
    match hw.start with
    | .rejected err => (c, .rejected err)
    | .fulfilled => ({ c with actions := c.actions ++ [.savePageState id] }, hw.savePageState)

/-- Lines 50-85: the `'BEHAVIORS_FINISHED'` listener, with the way its promise settles. -/
def onBehaviorsFinished (SCREENRECORDING_SAVE_GIF : Bool) (hw : HandlerWorld) (c : Controller) :
    Controller × Settled :=
  match c.recorder with
  | none => (c, .fulfilled)
  | some id =>
    let c := { c with actions := c.actions ++ [.stop id] }
    match hw.stop with
    | .rejected err => (c, .rejected err)
    | .fulfilled =>
      if SCREENRECORDING_SAVE_GIF then
        match hw.spawn with
        | some err => ({ c with actions := c.actions ++ [.spawnTranscoder, .logFailed err] },
            .fulfilled)
        | none =>
          match hw.blockUntilExists with
          | .rejected err =>
            ({ c with actions := c.actions ++ [.spawnTranscoder, .pollGif, .logFailed err] },
              .fulfilled)
          | .fulfilled =>
            if hw.durationBound then
              ({ c with actions := c.actions ++ [.spawnTranscoder, .pollGif, .logSaved] },
                .fulfilled)
            else
              ({ c with actions := c.actions ++ [.spawnTranscoder, .pollGif,
                  .logFailed "ReferenceError: duration is not defined"] }, .fulfilled)
      else (c, .fulfilled)

/-- One signal emitted on the page: the listeners registered so far run (the emitter drops
their promises), then a pending `once` resumes `extract` up to its next `await`. -/
def deliver (SCREENRECORDING_SAVE_GIF : Bool) (c : Controller) (d : Delivery) : Controller :=
  match d.signal with
  | .setup =>
    match c.stage with
    | .raised => c
    | .awaitingSetup => { (onSetup d.world c).1 with stage := .awaitingBehaviorsStarted }
    | _ => (onSetup d.world c).1
  | .BEHAVIORS_STARTED =>
    match c.stage with
    | .awaitingBehaviorsStarted => { c with stage := .awaitingBehaviorsFinished }
    | _ => c
  | .BEHAVIORS_FINISHED =>
    match c.stage with
    | .awaitingBehaviorsFinished =>
      { (onBehaviorsFinished SCREENRECORDING_SAVE_GIF d.world c).1 with stage := .returned }
    | .returned => (onBehaviorsFinished SCREENRECORDING_SAVE_GIF d.world c).1
    | _ => c
  | .other _ => c

/-- The signals of one task, delivered one after another. -/
def deliverAll (SCREENRECORDING_SAVE_GIF : Bool) (c : Controller) (ds : List Delivery) : Controller :=
  ds.foldl (deliver SCREENRECORDING_SAVE_GIF) c

/-- The function `extract(page)` run against the signals `ds` that the page emits during one
task, each delivered in a turn of its own. -/
def extract (getScopeConfig getPuppeteerPage : Settled) (SCREENRECORDING_SAVE_GIF : Bool)
    (ds : List Delivery) : Controller :=
  deliverAll SCREENRECORDING_SAVE_GIF (extractStart getScopeConfig getPuppeteerPage) ds

/-- Number of `new PuppeteerScreenRecorder` objects created. -/
def constructCount (c : Controller) : Nat :=
  c.actions.countP (fun a => match a with | .construct _ => true | _ => false)

/-- Number of `recorder.start` invocations. -/
def startCount (c : Controller) : Nat :=
  c.actions.countP (fun a => match a with | .start _ => true | _ => false)

/-- A delivery of the `'setup'` signal. -/
def isSetup (d : Delivery) : Bool := decide (d.signal = .setup)

/-- A `'setup'` delivery whose recorder constructor does not throw. -/
def isEffectiveSetup (d : Delivery) : Bool :=
  decide (d.signal = .setup) && d.world.construct.isNone

/-- Handler collaborators that all succeed. -/
def calmHandlers : HandlerWorld :=
  ⟨none, .fulfilled, .fulfilled, .fulfilled, none, .fulfilled, true⟩

/-- Handler collaborators whose recorder constructor throws. -/
def brokenRecorder : HandlerWorld :=
  ⟨some "recorder unavailable", .fulfilled, .fulfilled, .fulfilled, none, .fulfilled, true⟩

/-! ## Predicates used in the statements -/

namespace Run

/-- Every collaborator the block invokes is in `S`. -/
def Invokes {α : Type} (S : List Fn) (m : Run α) : Prop :=
  ∀ g, Event.invoke g ∈ m.trace → g ∈ S

/-- Whenever the block ends the function with `return v`, `v` satisfies `V`. -/
def Returns {α : Type} (V : RetVal → Prop) (m : Run α) : Prop :=
  ∀ v, m.flow = .ret v → V v

end Run

/-- The skip condition of line 94 on the effective target. -/
def shouldSkip (cfg : Config) (reg : Registry) (url data : JSString) : Prop :=
  scheme (effectiveUrl url data) ∈ cfg.URL_SCHEMES_IGNORED
    ∨ sliceKey (effectiveUrl url data) ∈ reg

instance (cfg : Config) (reg : Registry) (url data : JSString) :
    Decidable (shouldSkip cfg reg url data) := by
  unfold shouldSkip; infer_instance

/-- The status of the primary navigation response that the task observes: that of
`page.goto`, or of `page.waitForResponse` when `page.goto` resolved to `null`; there is none
when the process is ended while `page.goto` is pending. -/
def primaryStatus (w : World) : Option Nat :=
  match rejectsUnhandled w .startScreenrecording (w.outcome .startScreenrecording) .pageGoto
  with
  | some _ => none
  | none =>
    match w.goto with
    | .rejected _ => none
    | .response (some status) => some status
    | .response none =>
      match w.waitForResponse with
      | .rejected _ => none
      | .response status => status

/-- The awaited calls of session setup. -/
def sessionFns : List Fn :=
  [.pageBrowser, .createCDPSession, .getChromeExtensionsFromCache, .browserVersion,
   .setupSnapshotDir, .setupSnapshotDB]

/-- The collaborators of navigation and post-load settling. -/
def navigationFns : List Fn :=
  [.startScreenrecording, .pageGoto, .bringToFront, .waitForNetworkIdle, .waitForResponse]

/-- The behaviour emulation steps. -/
def behaviorFns : List Fn :=
  [.jiggleMouse, .solveCaptchas, .blockRedirects, .scrollDown, .submitForm]

/-- The synchronous capture steps. -/
def captureFns : List Fn := [.saveScreenrecording, .saveScreenshot, .savePDF]

/-- The collaborators of background extraction and wrap-up. -/
def closingFns : List Fn :=
  [.saveSinglefile, .saveMetrics, .gotoAboutBlank, .pageClose,
   .symlinkBestSnapshotResults, .blockUntilExistsGif, .spawnImgcat]

/-- The collaborators of behaviour emulation and of every later phase. -/
def fromBehaviorsOn : List Fn :=
  behaviorFns ++ [.stopMetadataRecording] ++ captureFns ++ [.inlineShadowDOM]
    ++ extractionUnits ++ closingFns ++ [.readFileAIQA]

/-- The collaborators invoked up to the end of navigation. -/
def upToNavigation : List Fn := sessionFns ++ pageSetupUnits ++ navigationFns

/-- The six awaited calls of session setup all fulfil. -/
def sessionSetupSucceeds (w : World) : Prop :=
  ∀ f ∈ sessionFns, w.outcome f = .fulfilled

instance (w : World) : Decidable (sessionSetupSucceeds w) := by
  unfold sessionSetupSucceeds; infer_instance

/-- The five behaviour steps and the metadata freeze all fulfil. -/
def behaviorsAndFreezeSucceed (w : World) : Prop :=
  ∀ f ∈ behaviorFns ++ [.stopMetadataRecording], w.outcome f = .fulfilled

instance (w : World) : Decidable (behaviorsAndFreezeSucceed w) := by
  unfold behaviorsAndFreezeSucceed; infer_instance

/-- The reason carried by a rejected outcome. -/
def reasonOf (p : Settled) : Option String :=
  match p with
  | .rejected reason => some reason
  | .fulfilled => none

/-- The console report of a batch whose units settled as `results`: nothing when no unit
rejected, else one warning carrying the reasons of the rejected units in launch order. -/
def batchReport (b : Batch) (results : List Settled) : List Event :=
  if results.filterMap reasonOf = [] then []
  else [.warnPartialFailures b (results.filterMap reasonOf)]

/-- A world in which the recording start rejects while `page.goto` is pending. -/
def earlyRejectionWorld : World where
  outcome := fun f => if f = .startScreenrecording then .rejected "recorder failed" else .fulfilled
  goto := .response (some 200)
  waitForResponse := .response (some 200)
  qa := .ok ⟨80, [], none, none, none, none, none⟩
  fractionToString := fun _ => "?"
  unhandledRejectionsFatal := true
  settlesDuring := fun f => if f = .startScreenrecording then some .pageGoto else none

/-- A world in which one unit of each batch rejects (in time to be handled) and every other
collaborator fulfils; `metrics` is the outcome of `saveMetrics`. -/
def oneFailurePerBatch (metrics : Settled) : World where
  outcome := fun f =>
    if f = .saveYTDLP then .rejected "no media"
    else if f = .startScreenrecording then .rejected "recorder failed"
    else if f = .saveSSL then .rejected "no certificate"
    else if f = .saveMetrics then metrics
    else .fulfilled
  goto := .response (some 200)
  waitForResponse := .response (some 200)
  qa := .ok ⟨80, [], none, none, none, none, none⟩
  fractionToString := fun _ => "?"
  unhandledRejectionsFatal := true
  settlesDuring := fun _ => none

/-- Tasks run one after another in one worker process: each starts from the registry the
previous one left; the process is gone (`none`) once a task has ended it. -/
def runTasks (cfg : Config) (reg : Registry) : List (World × JSString × JSString) → Option Registry
  | [] => some reg
  | (w, url, data) :: rest =>
    match (botArchiveTask cfg reg w url data).ending with
    | .exited _ => none
    | .crashed _ => none
    | _ => runTasks cfg (botArchiveTask cfg reg w url data).registry rest

end ArchiveBox

/-! ## Reasoning about blocks -/

namespace ArchiveBox

@[simp] theorem bind_eq {α β : Type} (m : Run α) (k : α → Run β) :
    (m >>= k) = m.andThen k := rfl

@[simp] theorem pure_eq {α : Type} (a : α) : (pure a : Run α) = Run.unit a := rfl

namespace Run

variable {α β : Type}

theorem andThen_flow (m : Run α) (k : α → Run β) :
    (m.andThen k).flow =
      match m.flow with
      | .next a => (k a).flow
      | .ret v => .ret v
      | .raise e => .raise e
      | .crash e => .crash e := by
  unfold andThen; split <;> simp_all

theorem andThen_flow_next_iff {m : Run α} {k : α → Run β} {b : β} :
    (m.andThen k).flow = .next b ↔ ∃ a, m.flow = .next a ∧ (k a).flow = .next b := by
  rw [andThen_flow]; split <;> simp_all

theorem andThen_of_next {m : Run α} {a : α} (h : m.flow = .next a) (k : α → Run β) :
    m.andThen k = ⟨m.trace ++ (k a).trace, (k a).flow⟩ := by
  unfold andThen; rw [h]

theorem andThen_of_raise {m : Run α} {e : String} (h : m.flow = .raise e) (k : α → Run β) :
    m.andThen k = ⟨m.trace, .raise e⟩ := by
  unfold andThen; rw [h]

theorem andThen_of_ret {m : Run α} {v : RetVal} (h : m.flow = .ret v) (k : α → Run β) :
    m.andThen k = ⟨m.trace, .ret v⟩ := by
  unfold andThen; rw [h]

theorem andThen_of_crash {m : Run α} {e : String} (h : m.flow = .crash e) (k : α → Run β) :
    m.andThen k = ⟨m.trace, .crash e⟩ := by
  unfold andThen; rw [h]

theorem andThen_trace_extends (m : Run α) (k : α → Run β) :
    ∃ rest, (m.andThen k).trace = m.trace ++ rest := by
  unfold andThen
  split
  · exact ⟨_, rfl⟩
  · exact ⟨[], (List.append_nil _).symm⟩
  · exact ⟨[], (List.append_nil _).symm⟩
  · exact ⟨[], (List.append_nil _).symm⟩

theorem mem_andThen {m : Run α} {k : α → Run β} {e : Event} :
    e ∈ (m.andThen k).trace ↔ e ∈ m.trace ∨ ∃ a, m.flow = .next a ∧ e ∈ (k a).trace := by
  unfold andThen; split <;> simp_all

theorem pass {m : Run α} {k : α → Run β} {e : Event} (hm : e ∉ m.trace)
    (h : e ∈ (m.andThen k).trace) :
    ∃ a, m.flow = .next a ∧ e ∈ (k a).trace ∧ (m.andThen k).flow = (k a).flow := by
  rcases mem_andThen.mp h with h | ⟨a, ha, h⟩
  · exact absurd h hm
  · exact ⟨a, ha, h, by rw [andThen_flow, ha]⟩

theorem not_invokes {m : Run α} {S : List Fn} {f : Fn} (hm : m.Invokes S) (hf : f ∉ S) :
    Event.invoke f ∉ m.trace :=
  fun h => hf (hm f h)

theorem tryCatch_of_next {m : Run α} {a : α} (h : m.flow = .next a) (k : String → Run α) :
    m.tryCatch k = m := by
  unfold tryCatch; rw [h]

theorem mem_tryCatch {m : Run α} {k : String → Run α} {e : Event} :
    e ∈ (m.tryCatch k).trace ↔ e ∈ m.trace ∨ ∃ r, m.flow = .raise r ∧ e ∈ (k r).trace := by
  unfold tryCatch; split <;> simp_all

theorem invokes_andThen {S : List Fn} {m : Run α} {k : α → Run β}
    (hm : m.Invokes S) (hk : ∀ a, (k a).Invokes S) : (m.andThen k).Invokes S := by
  intro g hg
  rcases mem_andThen.mp hg with h | ⟨a, _, h⟩
  · exact hm g h
  · exact hk a g h

theorem invokes_tryCatch {S : List Fn} {m : Run α} {k : String → Run α}
    (hm : m.Invokes S) (hk : ∀ r, (k r).Invokes S) : (m.tryCatch k).Invokes S := by
  intro g hg
  rcases mem_tryCatch.mp hg with h | ⟨r, _, h⟩
  · exact hm g h
  · exact hk r g h

theorem returns_andThen {V : RetVal → Prop} {m : Run α} {k : α → Run β}
    (hm : m.Returns V) (hk : ∀ a, (k a).Returns V) : (m.andThen k).Returns V := by
  intro v hv
  rw [andThen_flow] at hv
  split at hv
  · exact hk _ v hv
  · rename_i u hu
    cases hv
    exact hm _ hu
  · cases hv
  · cases hv

theorem returns_tryCatch {V : RetVal → Prop} {m : Run α} {k : String → Run α}
    (hm : m.Returns V) (hk : ∀ r, (k r).Returns V) : (m.tryCatch k).Returns V := by
  intro v hv
  unfold Run.tryCatch at hv
  split at hv
  · exact hk _ v hv
  · exact hm v hv

end Run

open Run

variable {α : Type} (w : World) (S : List Fn) (V : RetVal → Prop)

theorem invokes_unit (a : α) : (Run.unit a).Invokes S := by
  intro g hg; simp [Run.unit] at hg

theorem invokes_emit (e : Event) (h : ∀ g, e = .invoke g → g ∈ S) : (emit e).Invokes S := by
  intro g hg
  simp only [emit, List.mem_singleton] at hg
  exact h g hg.symm

theorem invokes_returnValue (v : RetVal) : (returnValue v : Run α).Invokes S := by
  intro g hg; simp [returnValue] at hg

theorem invokes_throwReason (r : String) : (throwReason r : Run α).Invokes S := by
  intro g hg; simp [throwReason] at hg

theorem invokes_invoke (f : Fn) (h : f ∈ S) : (invoke w f).Invokes S := by
  intro g hg
  simp only [invoke, List.mem_singleton, Event.invoke.injEq] at hg
  exact hg ▸ h

theorem invokes_awaitSettled (p : Settled) : (awaitSettled p).Invokes S := by
  intro g hg; cases p <;> simp [awaitSettled] at hg

theorem invokes_call (f : Fn) (h : f ∈ S) : (call w f).Invokes S :=
  invokes_andThen (invokes_invoke w S f h) (fun p => invokes_awaitSettled S p)

theorem invokes_allSettled (ps : List Settled) : (allSettled ps).Invokes S := by
  intro g hg; simp [allSettled] at hg

theorem invokes_warnIfRejected (b : Batch) (rs : List String) :
    (warnIfRejected b rs).Invokes S := by
  intro g hg
  unfold warnIfRejected at hg
  split at hg <;> simp [emit, Run.unit] at hg

theorem invokes_invokeAll (fs : List Fn) (h : ∀ f ∈ fs, f ∈ S) : (invokeAll w fs).Invokes S := by
  induction fs with
  | nil => exact invokes_unit S _
  | cons f fs ih =>
    refine invokes_andThen (invokes_invoke w S f (h f (List.mem_cons_self f fs))) (fun p => ?_)
    refine invokes_andThen (ih (fun f' hf' => h f' (List.mem_cons_of_mem f hf'))) (fun ps => ?_)
    exact invokes_unit S _

theorem invokes_settleNav (r : NavResult) : (settleNav r).Invokes S := by
  cases r
  · exact invokes_throwReason S _
  · exact invokes_unit S _

theorem invokes_awaitNav (f : Fn) (r : NavResult) (h : f ∈ S) : (awaitNav f r).Invokes S := by
  refine invokes_andThen (invokes_emit S _ (fun g hg => ?_)) (fun _ => invokes_settleNav S r)
  cases hg; exact h

theorem suspendWith_trace (f : Fn) (p : Settled) (point : AwaitPoint) :
    (suspendWith w f p point).trace = [] := by
  unfold suspendWith
  split <;> rfl

theorem invokes_suspendWith (f : Fn) (p : Settled) (point : AwaitPoint) :
    (suspendWith w f p point).Invokes S := by
  intro g hg
  rw [suspendWith_trace] at hg
  cases hg

theorem invokes_callHolding (g f : Fn) (p : Settled) (point : AwaitPoint) (h : g ∈ S) :
    (callHolding w g f p point).Invokes S :=
  invokes_andThen (invokes_invoke w S g h) (fun q =>
    invokes_andThen (invokes_suspendWith w S f p point) (fun _ => invokes_awaitSettled S q))

theorem returns_unit (a : α) : (Run.unit a).Returns V := by
  intro v hv; simp [Run.unit] at hv

theorem returns_emit (e : Event) : (emit e).Returns V := by
  intro v hv; simp [emit] at hv

theorem returns_returnValue (v : RetVal) (h : V v) : (returnValue v : Run α).Returns V := by
  intro u hu
  simp only [returnValue, Flow.ret.injEq] at hu
  exact hu ▸ h

theorem returns_throwReason (r : String) : (throwReason r : Run α).Returns V := by
  intro v hv; simp [throwReason] at hv

theorem returns_invoke (f : Fn) : (invoke w f).Returns V := by
  intro v hv; simp [invoke] at hv

theorem returns_awaitSettled (p : Settled) : (awaitSettled p).Returns V := by
  intro v hv; cases p <;> simp [awaitSettled] at hv

theorem returns_call (f : Fn) : (call w f).Returns V :=
  returns_andThen (returns_invoke w V f) (fun p => returns_awaitSettled V p)

theorem returns_allSettled (ps : List Settled) : (allSettled ps).Returns V := by
  intro v hv; simp [allSettled] at hv

theorem returns_warnIfRejected (b : Batch) (rs : List String) :
    (warnIfRejected b rs).Returns V := by
  intro v hv
  unfold warnIfRejected at hv
  split at hv <;> simp [emit, Run.unit] at hv

theorem returns_invokeAll (fs : List Fn) : (invokeAll w fs).Returns V := by
  induction fs with
  | nil => exact returns_unit V _
  | cons f fs ih =>
    refine returns_andThen (returns_invoke w V f) (fun p => ?_)
    exact returns_andThen ih (fun ps => returns_unit V _)

theorem returns_settleNav (r : NavResult) : (settleNav r).Returns V := by
  cases r
  · exact returns_throwReason V _
  · exact returns_unit V _

theorem returns_awaitNav (f : Fn) (r : NavResult) : (awaitNav f r).Returns V :=
  returns_andThen (returns_emit V _) (fun _ => returns_settleNav V r)

theorem returns_suspendWith (f : Fn) (p : Settled) (point : AwaitPoint) :
    (suspendWith w f p point).Returns V := by
  intro v hv
  unfold suspendWith at hv
  split at hv <;> simp [endProcess, Run.unit] at hv

theorem returns_callHolding (g f : Fn) (p : Settled) (point : AwaitPoint) :
    (callHolding w g f p point).Returns V :=
  returns_andThen (returns_invoke w V g) (fun q =>
    returns_andThen (returns_suspendWith w V f p point) (fun _ => returns_awaitSettled V q))

/-! ### Flows of the primitive steps -/

theorem call_trace (f : Fn) : (call w f).trace = [.invoke f] := by
  simp only [call, bind_eq, Run.andThen, invoke, awaitSettled]
  cases w.outcome f <;> rfl

theorem call_flow (f : Fn) :
    (call w f).flow =
      match w.outcome f with
      | .fulfilled => .next ()
      | .rejected reason => .raise reason := by
  simp only [call, bind_eq, Run.andThen, invoke, awaitSettled]
  cases w.outcome f <;> rfl

theorem call_flow_next_iff (f : Fn) (u : Unit) :
    (call w f).flow = .next u ↔ w.outcome f = .fulfilled := by
  rw [call_flow]; cases w.outcome f <;> simp

theorem invokeAll_flow (fs : List Fn) : (invokeAll w fs).flow = .next (fs.map w.outcome) := by
  induction fs with
  | nil => rfl
  | cons f fs ih =>
    simp only [invokeAll, bind_eq, pure_eq]
    rw [Run.andThen_of_next (a := w.outcome f) rfl]
    simp only
    rw [Run.andThen_of_next ih]
    rfl

theorem invokeAll_trace (fs : List Fn) : (invokeAll w fs).trace = fs.map Event.invoke := by
  induction fs with
  | nil => rfl
  | cons f fs ih =>
    simp only [invokeAll, bind_eq, pure_eq]
    rw [Run.andThen_of_next (a := w.outcome f) rfl]
    simp only
    rw [Run.andThen_of_next (invokeAll_flow w fs)]
    simp [ih, invoke, Run.unit]

theorem warnIfRejected_flow (b : Batch) (rs : List String) :
    (warnIfRejected b rs).flow = .next () := by
  unfold warnIfRejected; split <;> rfl

theorem warnIfRejected_trace (b : Batch) (rs : List String) :
    (warnIfRejected b rs).trace = if rs = [] then [] else [.warnPartialFailures b rs] := by
  unfold warnIfRejected
  cases rs <;> simp [emit, Run.unit]

end ArchiveBox

/-! ## The phases of `botArchiveTask` -/

namespace ArchiveBox

open Run

theorem sessionSetup_invokes (w : World) (S : List Fn) (h : ∀ f ∈ sessionFns, f ∈ S) :
    (sessionSetup w).Invokes S := by
  unfold sessionSetup
  simp only [bind_eq]
  repeat' first
    | exact invokes_call w S _ (h _ (by decide))
    | exact invokes_emit S _ (fun g hg => by cases hg)
    | refine invokes_andThen ?_ (fun _ => ?_)

theorem sessionSetup_returns (w : World) (V : RetVal → Prop) : (sessionSetup w).Returns V := by
  unfold sessionSetup
  simp only [bind_eq]
  repeat' first
    | exact returns_call w V _
    | exact returns_emit V _
    | refine returns_andThen ?_ (fun _ => ?_)

theorem sessionSetup_flow_cases (w : World) :
    (sessionSetup w).flow = .next () ∨ ∃ reason, (sessionSetup w).flow = .raise reason := by
  have hcall : ∀ (f : Fn) (k : Unit → Run Unit),
      ((k ()).flow = .next () ∨ ∃ reason, (k ()).flow = .raise reason) →
      (((call w f).andThen k).flow = .next ()
        ∨ ∃ reason, ((call w f).andThen k).flow = .raise reason) := by
    intro f k hk
    rw [andThen_flow, call_flow]
    cases w.outcome f with
    | fulfilled => exact hk
    | rejected reason => exact Or.inr ⟨reason, rfl⟩
  have hemit : ∀ (e : Event) (k : Unit → Run Unit),
      ((k ()).flow = .next () ∨ ∃ reason, (k ()).flow = .raise reason) →
      (((emit e).andThen k).flow = .next ()
        ∨ ∃ reason, ((emit e).andThen k).flow = .raise reason) := by
    intro e k hk
    rw [andThen_flow]
    exact hk
  unfold sessionSetup
  simp only [bind_eq]
  refine hcall _ _ (hcall _ _ (hcall _ _ (hcall _ _ (hemit _ _ (hcall _ _ (hcall _ _
    (hemit _ _ (Or.inl rfl))))))))

theorem sessionSetup_flow_next_iff (w : World) (u : Unit) :
    (sessionSetup w).flow = .next u ↔ sessionSetupSucceeds w := by
  unfold sessionSetup sessionSetupSucceeds sessionFns
  simp [andThen_flow_next_iff, call_flow_next_iff, emit]

theorem pagePreparation_flow (w : World) : (pagePreparation w).flow = .next () := by
  unfold pagePreparation
  have h : (do
      let promises ← invokeAll w pageSetupUnits
      let results ← allSettled promises
      let rejected := rejectedReasons results
      warnIfRejected .pageSetup rejected).flow = .next () := by
    simp only [bind_eq]
    rw [andThen_of_next (invokeAll_flow w _)]
    simp only [allSettled]
    rw [andThen_of_next (a := pageSetupUnits.map w.outcome) rfl]
    exact warnIfRejected_flow _ _
  rw [tryCatch_of_next h]
  exact h

theorem pagePreparation_trace (w : World) :
    (pagePreparation w).trace = pageSetupUnits.map Event.invoke ++
      (if rejectedReasons (pageSetupUnits.map w.outcome) = [] then []
       else [.warnPartialFailures .pageSetup (rejectedReasons (pageSetupUnits.map w.outcome))]) := by
  unfold pagePreparation
  have h : (do
      let promises ← invokeAll w pageSetupUnits
      let results ← allSettled promises
      let rejected := rejectedReasons results
      warnIfRejected .pageSetup rejected).flow = .next () := by
    simp only [bind_eq]
    rw [andThen_of_next (invokeAll_flow w _)]
    simp only [allSettled]
    rw [andThen_of_next (a := pageSetupUnits.map w.outcome) rfl]
    exact warnIfRejected_flow _ _
  rw [tryCatch_of_next h]
  simp only [bind_eq]
  rw [andThen_of_next (invokeAll_flow w _)]
  simp only [allSettled]
  rw [andThen_of_next (a := pageSetupUnits.map w.outcome) rfl]
  simp [invokeAll_trace, warnIfRejected_trace]

theorem returns_of_flow_next {α : Type} {m : Run α} {a : α} (V : RetVal → Prop)
    (h : m.flow = .next a) : m.Returns V := by
  intro v hv; rw [h] at hv; cases hv

theorem pagePreparation_invokes (w : World) (S : List Fn) (h : ∀ f ∈ pageSetupUnits, f ∈ S) :
    (pagePreparation w).Invokes S := by
  intro g hg
  rw [pagePreparation_trace] at hg
  rcases List.mem_append.mp hg with hg | hg
  · rcases List.mem_map.mp hg with ⟨f, hf, hfg⟩
    cases hfg
    exact h _ hf
  · split at hg <;> simp at hg

theorem postLoadSettling_flow (w : World) (p : Settled) :
    (postLoadSettling w p).flow = .next () := by
  unfold postLoadSettling
  have h : (do
      let p1 ← invoke w .bringToFront
      let p2 ← invoke w .waitForNetworkIdle
      let results ← allSettled [p, p1, p2]
      let rejected := rejectedReasons results
      warnIfRejected .pageLoad rejected).flow = .next () := by
    simp only [bind_eq, andThen_flow, invoke, allSettled]
    exact warnIfRejected_flow _ _
  rw [tryCatch_of_next h]
  exact h

theorem postLoadSettling_trace (w : World) (p : Settled) :
    (postLoadSettling w p).trace = [.invoke .bringToFront, .invoke .waitForNetworkIdle] ++
      (if rejectedReasons [p, w.outcome .bringToFront, w.outcome .waitForNetworkIdle] = [] then []
       else [.warnPartialFailures .pageLoad
          (rejectedReasons [p, w.outcome .bringToFront, w.outcome .waitForNetworkIdle])]) := by
  unfold postLoadSettling
  have h : (do
      let p1 ← invoke w .bringToFront
      let p2 ← invoke w .waitForNetworkIdle
      let results ← allSettled [p, p1, p2]
      let rejected := rejectedReasons results
      warnIfRejected .pageLoad rejected).flow = .next () := by
    simp only [bind_eq, andThen_flow, invoke, allSettled]
    exact warnIfRejected_flow _ _
  rw [tryCatch_of_next h]
  simp only [bind_eq, Run.andThen, invoke, allSettled, warnIfRejected_trace]
  simp

theorem postLoadSettling_invokes (w : World) (p : Settled) (S : List Fn)
    (h : ∀ f ∈ navigationFns, f ∈ S) : (postLoadSettling w p).Invokes S := by
  intro g hg
  rw [postLoadSettling_trace] at hg
  rcases List.mem_append.mp hg with hg | hg
  · simp only [List.mem_cons, Event.invoke.injEq, List.mem_singleton, List.not_mem_nil,
      or_false] at hg
    rcases hg with rfl | rfl
    · exact h _ (by decide)
    · exact h _ (by decide)
  · split at hg <;> simp at hg

theorem checkResponse_invokes (w : World) (r : Option Nat) (S : List Fn)
    (h : ∀ f ∈ navigationFns, f ∈ S) : (checkResponse w r).Invokes S := by
  unfold checkResponse
  simp only [bind_eq]
  refine invokes_andThen ?_ (fun r' => ?_)
  · cases r
    · exact invokes_awaitNav S _ _ (h _ (by decide))
    · exact invokes_unit S _
  · cases r'
    · exact invokes_throwReason S _
    · simp only
      split
      · exact invokes_throwReason S _
      · exact invokes_unit S _

theorem checkResponse_returns (w : World) (r : Option Nat) (V : RetVal → Prop) :
    (checkResponse w r).Returns V := by
  unfold checkResponse
  simp only [bind_eq]
  refine returns_andThen ?_ (fun r' => ?_)
  · cases r
    · exact returns_awaitNav V _ _
    · exact returns_unit V _
  · cases r'
    · exact returns_throwReason V _
    · simp only
      split
      · exact returns_throwReason V _
      · exact returns_unit V _

theorem navigation_invokes (w : World) (url : JSString) (S : List Fn)
    (h : ∀ f ∈ navigationFns, f ∈ S) : (navigation w url).Invokes S := by
  unfold navigation
  simp only [bind_eq]
  repeat' first
    | exact invokes_invoke w S _ (h _ (by decide))
    | exact invokes_suspendWith w S _ _ _
    | exact invokes_settleNav S _
    | exact postLoadSettling_invokes w _ S h
    | exact checkResponse_invokes w _ S h
    | exact invokes_emit S _ (fun g hg => by cases hg)
    | refine invokes_andThen ?_ (fun _ => ?_)

theorem navigation_returns (w : World) (url : JSString) (V : RetVal → Prop) :
    (navigation w url).Returns V := by
  unfold navigation
  simp only [bind_eq]
  repeat' first
    | exact returns_invoke w V _
    | exact returns_suspendWith w V _ _ _
    | exact returns_settleNav V _
    | exact returns_of_flow_next V (postLoadSettling_flow w _)
    | exact checkResponse_returns w _ V
    | exact returns_emit V _
    | refine returns_andThen ?_ (fun _ => ?_)

/-- How navigation ends, by the primary response. -/
theorem navigation_flow (w : World) (url : JSString) :
    (navigation w url).flow =
      match rejectsUnhandled w .startScreenrecording (w.outcome .startScreenrecording) .pageGoto
      with
      | some reason => .crash reason
      | none =>
        match w.goto with
        | .rejected reason => .raise reason
        | .response (some status) =>
          if status = 429 then .raise rateLimitMessage else .next ()
        | .response none =>
          match w.waitForResponse with
          | .rejected reason => .raise reason
          | .response none => .raise assertionFailure
          | .response (some status) =>
            if status = 429 then .raise rateLimitMessage else .next () := by
  unfold navigation
  simp only [bind_eq, andThen_flow, emit, invoke, suspendWith, settleNav, awaitNav,
    postLoadSettling_flow, checkResponse]
  rcases hc : rejectsUnhandled w .startScreenrecording (w.outcome .startScreenrecording)
      .pageGoto with _ | reason
  · rcases hg : w.goto with r | (_ | s)
    · simp [throwReason, Run.unit]
    · rcases hw : w.waitForResponse with r | (_ | s)
      · simp [throwReason, Run.unit, andThen_flow]
      · simp [throwReason, Run.unit, andThen_flow]
      · by_cases h : s = 429 <;> simp [throwReason, Run.unit, andThen_flow, h]
    · by_cases h : s = 429 <;> simp [throwReason, Run.unit, andThen_flow, h]
  · simp [endProcess]

theorem navigation_flow_next_iff (w : World) (url : JSString) (u : Unit) :
    (navigation w url).flow = .next u ↔ ∃ s, primaryStatus w = some s ∧ s ≠ 429 := by
  rw [navigation_flow]
  unfold primaryStatus
  rcases rejectsUnhandled w .startScreenrecording (w.outcome .startScreenrecording)
      .pageGoto with _ | reason
  · rcases w.goto with r | (_ | s)
    · simp
    · rcases w.waitForResponse with r | (_ | s)
      · simp
      · simp
      · by_cases h : s = 429 <;> simp [h]
    · by_cases h : s = 429 <;> simp [h]
  · simp

theorem navigation_flow_rateLimited (w : World) (url : JSString)
    (h : primaryStatus w = some 429) : (navigation w url).flow = .raise rateLimitMessage := by
  rw [navigation_flow]
  unfold primaryStatus at h
  rcases hc : rejectsUnhandled w .startScreenrecording (w.outcome .startScreenrecording)
      .pageGoto with _ | reason
  · rw [hc] at h
    rcases hg : w.goto with r | (_ | s)
    · simp [hg] at h
    · rw [hg] at h
      rcases hw : w.waitForResponse with r | (_ | s)
      · simp [hw] at h
      · simp [hw] at h
      · simp [hw] at h; simp [h]
    · simp [hg] at h; simp [h]
  · simp [hc] at h

theorem behaviorEmulation_invokes (w : World) (S : List Fn) (h : ∀ f ∈ behaviorFns, f ∈ S) :
    (behaviorEmulation w).Invokes S := by
  unfold behaviorEmulation
  simp only [bind_eq]
  repeat' first
    | exact invokes_call w S _ (h _ (by decide))
    | refine invokes_andThen ?_ (fun _ => ?_)

theorem behaviorEmulation_returns (w : World) (V : RetVal → Prop) :
    (behaviorEmulation w).Returns V := by
  unfold behaviorEmulation
  simp only [bind_eq]
  repeat' first
    | exact returns_call w V _
    | refine returns_andThen ?_ (fun _ => ?_)

theorem behaviorEmulation_flow_next_iff (w : World) (u : Unit) :
    (behaviorEmulation w).flow = .next u ↔ ∀ f ∈ behaviorFns, w.outcome f = .fulfilled := by
  unfold behaviorEmulation behaviorFns
  simp [andThen_flow_next_iff, call_flow_next_iff]

theorem metadataFreeze_invokes (w : World) (S : List Fn) (h : Fn.stopMetadataRecording ∈ S) :
    (metadataFreeze w).Invokes S := by
  unfold metadataFreeze
  simp only [bind_eq]
  repeat' first
    | exact invokes_call w S _ h
    | exact invokes_emit S _ (fun g hg => by cases hg)
    | refine invokes_andThen ?_ (fun _ => ?_)

theorem metadataFreeze_returns (w : World) (V : RetVal → Prop) :
    (metadataFreeze w).Returns V := by
  unfold metadataFreeze
  exact returns_andThen (returns_emit V _) (fun _ => returns_call w V _)

theorem metadataFreeze_flow_next_iff (w : World) (u : Unit) :
    (metadataFreeze w).flow = .next u ↔ w.outcome .stopMetadataRecording = .fulfilled := by
  unfold metadataFreeze
  simp [andThen_flow_next_iff, call_flow_next_iff, emit]

theorem synchronousCapture_invokes (w : World) (S : List Fn) (h : ∀ f ∈ captureFns, f ∈ S) :
    (synchronousCapture w).Invokes S := by
  unfold synchronousCapture
  simp only [bind_eq, pure_eq]
  repeat' first
    | exact invokes_callHolding w S _ _ _ _ (h _ (by decide))
    | exact invokes_invoke w S _ (h _ (by decide))
    | exact invokes_unit S _
    | refine invokes_andThen ?_ (fun _ => ?_)

theorem synchronousCapture_returns (w : World) (V : RetVal → Prop) :
    (synchronousCapture w).Returns V := by
  unfold synchronousCapture
  simp only [bind_eq, pure_eq]
  repeat' first
    | exact returns_callHolding w V _ _ _ _
    | exact returns_invoke w V _
    | exact returns_unit V _
    | refine returns_andThen ?_ (fun _ => ?_)

theorem parallelExtraction_invokes (w : World) (p : Settled) (S : List Fn)
    (h : ∀ f ∈ Fn.inlineShadowDOM :: extractionUnits, f ∈ S) :
    (parallelExtraction w p).Invokes S := by
  unfold parallelExtraction extractionBatch
  simp only [bind_eq]
  refine invokes_andThen (invokes_emit S _ (fun g hg => by cases hg)) (fun _ => ?_)
  refine invokes_andThen (invokes_callHolding w S _ _ _ _ (h _ (by decide))) (fun _ => ?_)
  refine invokes_andThen
    (invokes_invokeAll w S _ (fun f hf => h f (List.mem_cons_of_mem _ hf))) (fun _ => ?_)
  exact invokes_andThen (invokes_suspendWith w S _ _ _) (fun _ => invokes_allSettled S _)

theorem parallelExtraction_returns (w : World) (p : Settled) (V : RetVal → Prop) :
    (parallelExtraction w p).Returns V := by
  unfold parallelExtraction extractionBatch
  simp only [bind_eq]
  refine returns_andThen (returns_emit V _) (fun _ => ?_)
  refine returns_andThen (returns_callHolding w V _ _ _ _) (fun _ => ?_)
  refine returns_andThen (returns_invokeAll w V _) (fun _ => ?_)
  exact returns_andThen (returns_suspendWith w V _ _ _) (fun _ => returns_allSettled V _)

theorem backgroundExtraction_invokes (w : World) (p : Settled) (rs : List Settled) (S : List Fn)
    (h : ∀ f ∈ closingFns, f ∈ S) : (backgroundExtraction w p rs).Invokes S := by
  unfold backgroundExtraction
  simp only [bind_eq]
  repeat' first
    | exact invokes_call w S _ (h _ (by decide))
    | exact invokes_invoke w S _ (h _ (by decide))
    | exact invokes_allSettled S _
    | exact invokes_warnIfRejected S _ _
    | exact invokes_emit S _ (fun g hg => by cases hg)
    | refine invokes_andThen ?_ (fun _ => ?_)
    | refine invokes_tryCatch ?_ (fun _ => ?_)

theorem backgroundExtraction_returns (w : World) (p : Settled) (rs : List Settled)
    (V : RetVal → Prop) : (backgroundExtraction w p rs).Returns V := by
  unfold backgroundExtraction
  simp only [bind_eq]
  repeat' first
    | exact returns_call w V _
    | exact returns_invoke w V _
    | exact returns_allSettled V _
    | exact returns_warnIfRejected V _ _
    | exact returns_emit V _
    | refine returns_andThen ?_ (fun _ => ?_)
    | refine returns_tryCatch ?_ (fun _ => ?_)

theorem wrapUp_invokes (w : World) (S : List Fn) (h : ∀ f ∈ closingFns, f ∈ S) :
    (wrapUp w).Invokes S := by
  unfold wrapUp
  simp only [bind_eq]
  repeat' first
    | exact invokes_call w S _ (h _ (by decide))
    | exact invokes_emit S _ (fun g hg => by cases hg)
    | refine invokes_andThen ?_ (fun _ => ?_)
    | refine invokes_tryCatch ?_ (fun _ => ?_)

theorem wrapUp_returns (w : World) (V : RetVal → Prop) : (wrapUp w).Returns V := by
  unfold wrapUp
  simp only [bind_eq]
  repeat' first
    | exact returns_call w V _
    | exact returns_emit V _
    | refine returns_andThen ?_ (fun _ => ?_)
    | refine returns_tryCatch ?_ (fun _ => ?_)

theorem qualityGate_flow (w : World) (qa : QAResult) :
    (qualityGate w qa).flow =
      if qa.pct_visible < 50 then .raise (qualityFailureMessage w qa) else .ret .true := by
  unfold qualityGate
  split
  · rfl
  · simp [andThen_flow, emit, returnValue]

theorem verdict_flow (w : World) :
    (verdict w).flow =
      match w.qa with
      | .error reason => .raise reason
      | .ok qa => (qualityGate w qa).flow := by
  unfold verdict
  simp only [bind_eq, andThen_flow, emit]
  cases w.qa <;> rfl

theorem verdict_returns (w : World) (V : RetVal → Prop) (h : V .true) :
    (verdict w).Returns V := by
  intro v hv
  rw [verdict_flow] at hv
  cases hq : w.qa with
  | error e => rw [hq] at hv; cases hv
  | ok qa =>
    rw [hq] at hv
    simp only [qualityGate_flow] at hv
    split at hv
    · cases hv
    · cases hv; exact h

/-! ### The admitted task as a whole -/

theorem archiveAdmitted_returns (w : World) (url : JSString) (V : RetVal → Prop) (h : V .true) :
    (archiveAdmitted w url).Returns V := by
  unfold archiveAdmitted
  simp only [bind_eq]
  refine returns_andThen (sessionSetup_returns w V) (fun _ => ?_)
  refine returns_andThen (returns_of_flow_next V (pagePreparation_flow w)) (fun _ => ?_)
  refine returns_andThen (navigation_returns w url V) (fun _ => ?_)
  refine returns_andThen (behaviorEmulation_returns w V) (fun _ => ?_)
  refine returns_andThen (metadataFreeze_returns w V) (fun _ => ?_)
  refine returns_andThen (synchronousCapture_returns w V) (fun _ => ?_)
  refine returns_andThen (parallelExtraction_returns w _ V) (fun _ => ?_)
  refine returns_andThen (backgroundExtraction_returns w _ _ V) (fun _ => ?_)
  refine returns_andThen (wrapUp_returns w V) (fun _ => ?_)
  exact verdict_returns w V h

theorem archiveAdmitted_trace_head (w : World) (url : JSString) :
    (archiveAdmitted w url).trace.head? = some (.invoke .pageBrowser) := by
  unfold archiveAdmitted sessionSetup
  simp only [bind_eq]
  have h : ∀ {α β γ : Type} (m : Run α) (k : α → Run β) (e : Event),
      m.trace.head? = some e → (m.andThen k).trace.head? = some e := by
    intro α β γ m k e hm
    unfold Run.andThen
    split <;> simp_all [List.head?_append]
  apply h (γ := Unit)
  apply h (γ := Unit)
  rw [call_trace]
  rfl

theorem toEnding_ne_exited (f : Flow Unit) (code : Nat) : f.toEnding ≠ .exited code := by
  cases f <;> simp [Flow.toEnding]

theorem toEnding_eq_returned_null (f : Flow Unit) :
    f.toEnding = .returned .null ↔ f = .ret .null := by
  cases f <;> simp [Flow.toEnding]

/-- The three ways `botArchiveTask` leaves Admission. -/
theorem botArchiveTask_cases (cfg : Config) (reg : Registry) (w : World) (url data : JSString) :
    (shouldSkip cfg reg url data ∧
      botArchiveTask cfg reg w url data = ⟨reg, [], .returned .null⟩)
    ∨ (¬ shouldSkip cfg reg url data ∧
        cfg.TASKS_PER_RUN_LIMIT < (insert (sliceKey (effectiveUrl url data)) reg).card ∧
        botArchiveTask cfg reg w url data =
          ⟨insert (sliceKey (effectiveUrl url data)) reg, [.warnQuota, .warnQuota], .exited 21⟩)
    ∨ (¬ shouldSkip cfg reg url data ∧
        ¬ cfg.TASKS_PER_RUN_LIMIT < (insert (sliceKey (effectiveUrl url data)) reg).card ∧
        botArchiveTask cfg reg w url data =
          ⟨insert (sliceKey (effectiveUrl url data)) reg,
            (archiveAdmitted w (effectiveUrl url data)).trace,
            (archiveAdmitted w (effectiveUrl url data)).flow.toEnding⟩) := by
  by_cases hs : shouldSkip cfg reg url data
  · left
    refine ⟨hs, ?_⟩
    unfold shouldSkip at hs
    simp only [botArchiveTask, is_unarchivable_url, is_already_archived, Bool.or_eq_true,
      decide_eq_true_eq, hs, if_true]
  · right
    have hs' := hs
    unfold shouldSkip at hs'
    by_cases hq : cfg.TASKS_PER_RUN_LIMIT < (insert (sliceKey (effectiveUrl url data)) reg).card
    · left
      refine ⟨hs, hq, ?_⟩
      simp only [botArchiveTask, is_unarchivable_url, is_already_archived, Bool.or_eq_true,
        decide_eq_true_eq, hs', if_false, gt_iff_lt, hq, if_true]
    · right
      refine ⟨hs, hq, ?_⟩
      simp only [botArchiveTask, is_unarchivable_url, is_already_archived, Bool.or_eq_true,
        decide_eq_true_eq, hs', if_false, gt_iff_lt, hq]

end ArchiveBox

/-! ## Admission: skipping, the registry and the quota -/

namespace ArchiveBox

open Run

theorem registry_grows (cfg : Config) (reg : Registry) (w : World) (url data : JSString) :
    reg ⊆ (botArchiveTask cfg reg w url data).registry := by
  rcases botArchiveTask_cases cfg reg w url data with ⟨_, h⟩ | ⟨_, _, h⟩ | ⟨_, _, h⟩ <;>
    rw [h] <;> simp [Finset.subset_insert]

theorem runTasks_grows (cfg : Config) (tasks : List (World × JSString × JSString)) :
    ∀ (reg reg' : Registry), runTasks cfg reg tasks = some reg' → reg ⊆ reg' := by
  induction tasks with
  | nil =>
    intro reg reg' h
    simp only [runTasks, Option.some.injEq] at h
    exact h ▸ Finset.Subset.refl _
  | cons t rest ih =>
    intro reg reg' h
    obtain ⟨w, url, data⟩ := t
    simp only [runTasks] at h
    split at h
    · cases h
    · cases h
    · exact Finset.Subset.trans (registry_grows cfg reg w url data) (ih _ _ h)

/-- C1: `botArchiveTask` returns `null` exactly when the target's scheme is in
`URL_SCHEMES_IGNORED` or its first 4096 code units are already in `ALREADY_ARCHIVED`; on such
a skip the registry is unchanged and nothing at all is invoked or printed (no registration, no
capacity check, no session setup, no later phase). -/
theorem botArchiveTask_skips_exactly_when (cfg : Config) (reg : Registry) (w : World)
    (url data : JSString) :
    ((botArchiveTask cfg reg w url data).ending = .returned .null ↔
      (scheme (effectiveUrl url data) ∈ cfg.URL_SCHEMES_IGNORED
        ∨ sliceKey (effectiveUrl url data) ∈ reg))
    ∧ ((botArchiveTask cfg reg w url data).ending = .returned .null →
        (botArchiveTask cfg reg w url data).registry = reg
        ∧ (botArchiveTask cfg reg w url data).trace = []) := by
  rcases botArchiveTask_cases cfg reg w url data with ⟨hs, h⟩ | ⟨hs, _, h⟩ | ⟨hs, _, h⟩
  · rw [h]
    exact ⟨⟨fun _ => hs, fun _ => rfl⟩, fun _ => ⟨rfl, rfl⟩⟩
  · rw [h]
    refine ⟨⟨fun hn => ?_, fun hs' => absurd hs' hs⟩, fun hn => ?_⟩ <;> cases hn
  · rw [h]
    have hnull : (archiveAdmitted w (effectiveUrl url data)).flow.toEnding ≠ .returned .null := by
      intro hn
      rw [toEnding_eq_returned_null] at hn
      exact archiveAdmitted_returns w _ (fun v => v ≠ .null) (by decide) _ hn rfl
    exact ⟨⟨fun hn => absurd hn hnull, fun hs' => absurd hs' hs⟩, fun hn => absurd hn hnull⟩

/-- C3: for a target that is not skipped, the size of `ALREADY_ARCHIVED` at the capacity check
is the size after the target's registration; when it exceeds `TASKS_PER_RUN_LIMIT` the process
exits with status 21 and no collaborator is invoked (session setup never starts); when it does
not, the call does not exit the process and its first action is the first call of session
setup. -/
theorem quota_exit_before_session_setup (cfg : Config) (reg : Registry) (w : World)
    (url data : JSString) (hskip : ¬ shouldSkip cfg reg url data) :
    (cfg.TASKS_PER_RUN_LIMIT < (insert (sliceKey (effectiveUrl url data)) reg).card →
        (botArchiveTask cfg reg w url data).ending = .exited 21
        ∧ ∀ f, Event.invoke f ∉ (botArchiveTask cfg reg w url data).trace)
    ∧ (¬ cfg.TASKS_PER_RUN_LIMIT < (insert (sliceKey (effectiveUrl url data)) reg).card →
        (∀ code, (botArchiveTask cfg reg w url data).ending ≠ .exited code)
        ∧ (botArchiveTask cfg reg w url data).trace.head? = some (.invoke .pageBrowser)) := by
  rcases botArchiveTask_cases cfg reg w url data with ⟨hs, _⟩ | ⟨_, hq, h⟩ | ⟨_, hq, h⟩
  · exact absurd hs hskip
  · rw [h]
    refine ⟨fun _ => ⟨rfl, fun f hf => ?_⟩, fun hn => absurd hq hn⟩
    simp at hf
  · rw [h]
    exact ⟨fun hq' => absurd hq' hq,
      fun _ => ⟨fun code => toEnding_ne_exited _ code, archiveAdmitted_trace_head w _⟩⟩

theorem quota_exit_before_session_setup_witness :
    ¬ shouldSkip ⟨[], 1⟩ {[97]} [98] []
    ∧ (botArchiveTask ⟨[], 1⟩ {[97]} (calmWorld 200 80) [98] []).ending = .exited 21
    ∧ (botArchiveTask ⟨[], 2⟩ {[97]} (calmWorld 200 80) [98] []).trace.head?
        = some (.invoke .pageBrowser) :=
  ⟨by decide,
   ((quota_exit_before_session_setup ⟨[], 1⟩ {[97]} (calmWorld 200 80) [98] []
      (by decide)).1 (by decide)).1,
   ((quota_exit_before_session_setup ⟨[], 2⟩ {[97]} (calmWorld 200 80) [98] []
      (by decide)).2 (by decide)).2⟩

/-- C4 as stated fails: a worker whose registry holds exactly `TASKS_PER_RUN_LIMIT` targets
exits with status 21 on the next new target. -/
theorem capacity_check_counts_current_target :
    ¬ shouldSkip ⟨[], 1⟩ {[97]} [98] []
    ∧ ({[97]} : Registry).card = (⟨[], 1⟩ : Config).TASKS_PER_RUN_LIMIT
    ∧ (botArchiveTask ⟨[], 1⟩ {[97]} (calmWorld 200 80) [98] []).ending = .exited 21 := by
  decide

/-- C4 amended: the capacity check is made after the new target is registered and compares
the post-increment count: for a target that is not skipped the registry ends one larger with
the target's key in it, and the process exits with status 21 exactly when the number of
targets registered before this one is at least `TASKS_PER_RUN_LIMIT`. -/
theorem capacity_check_after_registration (cfg : Config) (reg : Registry) (w : World)
    (url data : JSString) (hskip : ¬ shouldSkip cfg reg url data) :
    (botArchiveTask cfg reg w url data).registry = insert (sliceKey (effectiveUrl url data)) reg
    ∧ (botArchiveTask cfg reg w url data).registry.card = reg.card + 1
    ∧ ((botArchiveTask cfg reg w url data).ending = .exited 21 ↔
        cfg.TASKS_PER_RUN_LIMIT ≤ reg.card) := by
  have hnew : sliceKey (effectiveUrl url data) ∉ reg := fun hin => hskip (Or.inr hin)
  have hcard : (insert (sliceKey (effectiveUrl url data)) reg).card = reg.card + 1 :=
    Finset.card_insert_of_not_mem hnew
  rcases botArchiveTask_cases cfg reg w url data with ⟨hs, _⟩ | ⟨_, hq, h⟩ | ⟨_, hq, h⟩
  · exact absurd hs hskip
  · rw [h]
    refine ⟨rfl, hcard, ⟨fun _ => ?_, fun _ => rfl⟩⟩
    show cfg.TASKS_PER_RUN_LIMIT ≤ reg.card
    omega
  · rw [h]
    refine ⟨rfl, hcard, ⟨fun he => absurd he (toEnding_ne_exited _ 21), fun hle => ?_⟩⟩
    exfalso
    apply hq
    omega

theorem capacity_check_after_registration_witness :
    ¬ shouldSkip ⟨[], 1⟩ {[97]} [98] []
    ∧ (botArchiveTask ⟨[], 1⟩ {[97]} (calmWorld 200 80) [98] []).registry.card = 2
    ∧ ((botArchiveTask ⟨[], 1⟩ {[97]} (calmWorld 200 80) [98] []).ending = .exited 21 ↔
        1 ≤ ({[97]} : Registry).card) :=
  ⟨by decide,
   (capacity_check_after_registration ⟨[], 1⟩ {[97]} (calmWorld 200 80) [98] [] (by decide)).2.1,
   (capacity_check_after_registration ⟨[], 1⟩ {[97]} (calmWorld 200 80) [98] [] (by decide)).2.2⟩

end ArchiveBox

/-! ## Navigation, the recording hand-off and the quality gate -/

namespace ArchiveBox

open Run

theorem invoke_mem_trace (cfg : Config) (reg : Registry) (w : World) (url data : JSString)
    (f : Fn) (h : Event.invoke f ∈ (botArchiveTask cfg reg w url data).trace) :
    botArchiveTask cfg reg w url data =
      ⟨insert (sliceKey (effectiveUrl url data)) reg,
        (archiveAdmitted w (effectiveUrl url data)).trace,
        (archiveAdmitted w (effectiveUrl url data)).flow.toEnding⟩ := by
  rcases botArchiveTask_cases cfg reg w url data with ⟨_, h'⟩ | ⟨_, _, h'⟩ | ⟨_, _, h'⟩
  · rw [h'] at h; simp at h
  · rw [h'] at h; simp at h
  · exact h'

theorem archiveAdmitted_rateLimited (w : World) (url : JSString)
    (h429 : primaryStatus w = some 429) :
    (∃ reason, (archiveAdmitted w url).flow = .raise reason)
    ∧ (sessionSetupSucceeds w → (archiveAdmitted w url).flow = .raise rateLimitMessage)
    ∧ (archiveAdmitted w url).Invokes upToNavigation := by
  have hnav := navigation_flow_rateLimited w url h429
  have hpp := pagePreparation_flow w
  unfold archiveAdmitted
  simp only [bind_eq]
  refine ⟨?_, ?_, ?_⟩
  · rw [andThen_flow]
    rcases hss : (sessionSetup w).flow with u | v | e
    · simp only
      rw [andThen_flow, hpp]
      simp only
      rw [andThen_flow, hnav]
      exact ⟨_, rfl⟩
    · exact absurd hss (fun h => sessionSetup_returns w (fun _ => False) v h)
    · exact ⟨e, rfl⟩
    · rcases sessionSetup_flow_cases w with h | ⟨r, h⟩ <;> rw [h] at hss <;> cases hss
  · intro hok
    have hss := (sessionSetup_flow_next_iff w ()).mpr hok
    rw [andThen_flow, hss]
    simp only
    rw [andThen_flow, hpp]
    simp only
    rw [andThen_flow, hnav]
  · intro g hg
    rcases mem_andThen.mp hg with h | ⟨_, _, hg⟩
    · exact sessionSetup_invokes w upToNavigation (by decide) g h
    rcases mem_andThen.mp hg with h | ⟨_, _, hg⟩
    · exact pagePreparation_invokes w upToNavigation (by decide) g h
    rcases mem_andThen.mp hg with h | ⟨a, ha, _⟩
    · exact navigation_invokes w url upToNavigation (by decide) g h
    · rw [hnav] at ha; cases ha

/-- C5: when the primary navigation response of an admitted target has status 429 the task
ends by raising (with the rate-limit message whenever session setup completes), and no
collaborator of behaviour emulation or of any later phase is invoked: neither `jiggleMouse`,
`solveCaptchas`, `blockRedirects`, `scrollDown`, `submitForm`, nor `stopMetadataRecording`,
`saveScreenshot`, `savePDF`, nor any unit of the parallel extraction batch. -/
theorem rate_limited_task_aborts_before_behaviors (cfg : Config) (reg : Registry) (w : World)
    (url data : JSString) (hskip : ¬ shouldSkip cfg reg url data)
    (hquota : ¬ cfg.TASKS_PER_RUN_LIMIT < (insert (sliceKey (effectiveUrl url data)) reg).card)
    (h429 : primaryStatus w = some 429) :
    (∃ reason, (botArchiveTask cfg reg w url data).ending = .threw reason)
    ∧ (sessionSetupSucceeds w →
        (botArchiveTask cfg reg w url data).ending = .threw rateLimitMessage)
    ∧ (∀ f ∈ fromBehaviorsOn, Event.invoke f ∉ (botArchiveTask cfg reg w url data).trace) := by
  rcases botArchiveTask_cases cfg reg w url data with ⟨hs, _⟩ | ⟨_, hq, _⟩ | ⟨_, _, h⟩
  · exact absurd hs hskip
  · exact absurd hq hquota
  · rw [h]
    obtain ⟨⟨reason, hr⟩, hmsg, hinv⟩ := archiveAdmitted_rateLimited w (effectiveUrl url data) h429
    refine ⟨⟨reason, ?_⟩, fun hok => ?_, fun f hf hmem => ?_⟩
    · show Flow.toEnding _ = _
      rw [hr]; rfl
    · show Flow.toEnding _ = _
      rw [hmsg hok]; rfl
    · have hdisjoint : ∀ g ∈ fromBehaviorsOn, g ∉ upToNavigation := by decide
      exact hdisjoint f hf (hinv f hmem)

theorem rate_limited_task_aborts_before_behaviors_witness :
    (botArchiveTask ⟨[], 5⟩ ∅ (calmWorld 429 80) [104, 58, 47] []).ending = .threw rateLimitMessage
    ∧ Event.invoke .jiggleMouse ∉
        (botArchiveTask ⟨[], 5⟩ ∅ (calmWorld 429 80) [104, 58, 47] []).trace :=
  ⟨(rate_limited_task_aborts_before_behaviors ⟨[], 5⟩ ∅ (calmWorld 429 80) [104, 58, 47] []
      (by decide) (by decide) (by decide)).2.1 (by decide),
   (rate_limited_task_aborts_before_behaviors ⟨[], 5⟩ ∅ (calmWorld 429 80) [104, 58, 47] []
      (by decide) (by decide) (by decide)).2.2 .jiggleMouse (by decide)⟩

theorem synchronousCapture_trace_head (w : World) :
    Event.invoke .saveScreenrecording ∈ (synchronousCapture w).trace := by
  unfold synchronousCapture
  simp only [bind_eq]
  exact mem_andThen.mpr (Or.inl (by simp [invoke]))

theorem archiveAdmitted_handoff_iff (w : World) (url : JSString)
    (hstart : Event.invoke .startScreenrecording ∈ (archiveAdmitted w url).trace) :
    Event.invoke .saveScreenrecording ∈ (archiveAdmitted w url).trace ↔
      (∃ s, primaryStatus w = some s ∧ s ≠ 429) ∧ behaviorsAndFreezeSucceed w := by
  have hbf : behaviorsAndFreezeSucceed w ↔
      (∀ f ∈ behaviorFns, w.outcome f = .fulfilled)
        ∧ w.outcome .stopMetadataRecording = .fulfilled := by
    unfold behaviorsAndFreezeSucceed behaviorFns
    simp [and_assoc]
  unfold archiveAdmitted at hstart ⊢
  simp only [bind_eq] at hstart ⊢
  obtain ⟨_, hss, hstart, _⟩ :=
    pass (not_invokes (sessionSetup_invokes w sessionFns (fun _ h => h)) (by decide)) hstart
  obtain ⟨_, hpp, _, _⟩ :=
    pass (not_invokes (pagePreparation_invokes w pageSetupUnits (fun _ h => h)) (by decide)) hstart
  constructor
  · intro hsave
    obtain ⟨_, _, hsave, _⟩ :=
      pass (not_invokes (sessionSetup_invokes w sessionFns (fun _ h => h)) (by decide)) hsave
    obtain ⟨_, _, hsave, _⟩ :=
      pass (not_invokes (pagePreparation_invokes w pageSetupUnits (fun _ h => h)) (by decide))
        hsave
    obtain ⟨_, hnav, hsave, _⟩ :=
      pass (not_invokes (navigation_invokes w url navigationFns (fun _ h => h)) (by decide))
        hsave
    obtain ⟨_, hbe, hsave, _⟩ :=
      pass (not_invokes (behaviorEmulation_invokes w behaviorFns (fun _ h => h)) (by decide))
        hsave
    obtain ⟨_, hmf, _, _⟩ :=
      pass (not_invokes (metadataFreeze_invokes w [.stopMetadataRecording] (by decide))
        (by decide)) hsave
    exact ⟨(navigation_flow_next_iff w url _).mp hnav,
      hbf.mpr ⟨(behaviorEmulation_flow_next_iff w _).mp hbe,
        (metadataFreeze_flow_next_iff w _).mp hmf⟩⟩
  · rintro ⟨hstatus, hok⟩
    obtain ⟨hbe, hmf⟩ := hbf.mp hok
    refine mem_andThen.mpr (Or.inr ⟨_, hss, ?_⟩)
    refine mem_andThen.mpr (Or.inr ⟨_, hpp, ?_⟩)
    refine mem_andThen.mpr (Or.inr ⟨_, (navigation_flow_next_iff w url ()).mpr hstatus, ?_⟩)
    refine mem_andThen.mpr (Or.inr ⟨_, (behaviorEmulation_flow_next_iff w ()).mpr hbe, ?_⟩)
    refine mem_andThen.mpr (Or.inr ⟨_, (metadataFreeze_flow_next_iff w ()).mpr hmf, ?_⟩)
    exact mem_andThen.mpr (Or.inl (synchronousCapture_trace_head w))

/-- C9 as stated fails: on a 429 response the recording has been started, the task ends by
raising, and `saveScreenrecording` was never invoked. -/
theorem recording_not_released_on_rate_limit :
    Event.invoke .startScreenrecording ∈
        (botArchiveTask ⟨[], 5⟩ ∅ (calmWorld 429 80) [104, 58, 47] []).trace
    ∧ (botArchiveTask ⟨[], 5⟩ ∅ (calmWorld 429 80) [104, 58, 47] []).ending
        = .threw rateLimitMessage
    ∧ Event.invoke .saveScreenrecording ∉
        (botArchiveTask ⟨[], 5⟩ ∅ (calmWorld 429 80) [104, 58, 47] []).trace := by
  decide

/-- C9 amended: in every execution of `botArchiveTask` in which `startScreenrecording` was
invoked, `saveScreenrecording` is invoked before the task ends exactly when the task reaches
synchronous capture, that is when the primary response exists with a status other than 429 and
the five behaviour steps and `stopMetadataRecording` fulfil; every exit from synchronous
capture onwards therefore has the recording handed off, and every earlier exit has not. -/
theorem recording_handed_off_iff_capture_reached (cfg : Config) (reg : Registry) (w : World)
    (url data : JSString)
    (hstart : Event.invoke .startScreenrecording ∈ (botArchiveTask cfg reg w url data).trace) :
    Event.invoke .saveScreenrecording ∈ (botArchiveTask cfg reg w url data).trace ↔
      (∃ s, primaryStatus w = some s ∧ s ≠ 429) ∧ behaviorsAndFreezeSucceed w := by
  have h := invoke_mem_trace cfg reg w url data _ hstart
  rw [h] at hstart ⊢
  exact archiveAdmitted_handoff_iff w _ hstart

theorem recording_handed_off_iff_capture_reached_witness :
    Event.invoke .startScreenrecording ∈
        (botArchiveTask ⟨[], 5⟩ ∅ (calmWorld 200 49) [104, 58, 47] []).trace
    ∧ Event.invoke .saveScreenrecording ∈
        (botArchiveTask ⟨[], 5⟩ ∅ (calmWorld 200 49) [104, 58, 47] []).trace :=
  ⟨by decide,
   (recording_handed_off_iff_capture_reached ⟨[], 5⟩ ∅ (calmWorld 200 49) [104, 58, 47] []
      (by decide)).mpr ⟨⟨200, by decide, by decide⟩, by decide⟩⟩

theorem archiveAdmitted_gate_reached (w : World) (url : JSString)
    (h : Event.invoke .readFileAIQA ∈ (archiveAdmitted w url).trace) :
    (archiveAdmitted w url).flow = (verdict w).flow := by
  unfold archiveAdmitted at h ⊢
  simp only [bind_eq] at h ⊢
  obtain ⟨_, _, h, e1⟩ :=
    pass (not_invokes (sessionSetup_invokes w sessionFns (fun _ h => h)) (by decide)) h
  obtain ⟨_, _, h, e2⟩ :=
    pass (not_invokes (pagePreparation_invokes w pageSetupUnits (fun _ h => h)) (by decide)) h
  obtain ⟨_, _, h, e3⟩ :=
    pass (not_invokes (navigation_invokes w url navigationFns (fun _ h => h)) (by decide)) h
  obtain ⟨_, _, h, e4⟩ :=
    pass (not_invokes (behaviorEmulation_invokes w behaviorFns (fun _ h => h)) (by decide)) h
  obtain ⟨_, _, h, e5⟩ :=
    pass (not_invokes (metadataFreeze_invokes w [.stopMetadataRecording] (by decide))
      (by decide)) h
  obtain ⟨_, _, h, e6⟩ :=
    pass (not_invokes (synchronousCapture_invokes w captureFns (fun _ h => h)) (by decide)) h
  obtain ⟨_, _, h, e7⟩ :=
    pass (not_invokes (parallelExtraction_invokes w _ _ (fun _ h => h)) (by decide)) h
  obtain ⟨_, _, h, e8⟩ :=
    pass (not_invokes (backgroundExtraction_invokes w _ _ closingFns (fun _ h => h))
      (by decide)) h
  obtain ⟨_, _, _, e9⟩ :=
    pass (not_invokes (wrapUp_invokes w closingFns (fun _ h => h)) (by decide)) h
  rw [e1, e2, e3, e4, e5, e6, e7, e8, e9]

theorem numberToString_49 (w : World) : numberToString w 49 = "49" := by
  unfold numberToString
  rw [if_pos ⟨rfl, by decide⟩]
  rfl

theorem orElse_empty (o : Option String) : orElse o "" = o.getD "" := by
  cases o with
  | none => rfl
  | some s =>
    unfold orElse
    split <;> simp_all

/-- C2: when `botArchiveTask` reaches the quality gate and reads a QA artifact with a numeric
`pct_visible`, it raises if and only if `pct_visible < 50` and otherwise returns `true`; the
raised text carries the score, the warnings joined in their order and the error text when
present. With `pct_visible = 49` the raised text contains `49`; with `pct_visible = 50` the
task returns `true`. -/
theorem quality_gate_threshold (cfg : Config) (reg : Registry) (w : World) (url data : JSString)
    (qa : QAResult) (hqa : w.qa = .ok qa)
    (hreached : Event.invoke .readFileAIQA ∈ (botArchiveTask cfg reg w url data).trace) :
    ((∃ reason, (botArchiveTask cfg reg w url data).ending = .threw reason) ↔
        qa.pct_visible < 50)
    ∧ (qa.pct_visible < 50 →
        (botArchiveTask cfg reg w url data).ending =
          .threw ("[❌] Task completed with problems, got AI QA score of "
            ++ numberToString w qa.pct_visible ++ "%! "
            ++ String.intercalate ", " qa.warnings ++ " " ++ qa.error_text.getD ""))
    ∧ (¬ qa.pct_visible < 50 → (botArchiveTask cfg reg w url data).ending = .returned .true)
    ∧ (qa.pct_visible = 49 →
        (botArchiveTask cfg reg w url data).ending =
          .threw ("[❌] Task completed with problems, got AI QA score of " ++ "49" ++ "%! "
            ++ String.intercalate ", " qa.warnings ++ " " ++ qa.error_text.getD ""))
    ∧ (qa.pct_visible = 50 → (botArchiveTask cfg reg w url data).ending = .returned .true) := by
  have h := invoke_mem_trace cfg reg w url data _ hreached
  rw [h] at hreached
  have hflow := archiveAdmitted_gate_reached w _ hreached
  rw [verdict_flow, hqa] at hflow
  simp only [qualityGate_flow] at hflow
  have hend : (botArchiveTask cfg reg w url data).ending =
      if qa.pct_visible < 50 then .threw (qualityFailureMessage w qa) else .returned .true := by
    rw [h]
    show Flow.toEnding _ = _
    rw [hflow]
    split <;> rfl
  have hmsg : qualityFailureMessage w qa =
      "[❌] Task completed with problems, got AI QA score of "
        ++ numberToString w qa.pct_visible ++ "%! "
        ++ String.intercalate ", " qa.warnings ++ " " ++ qa.error_text.getD "" := by
    unfold qualityFailureMessage
    rw [orElse_empty]
  rw [hend]
  refine ⟨?_, ?_, ?_, ?_, ?_⟩
  · by_cases hlt : qa.pct_visible < 50 <;> simp [hlt]
  · intro hlt
    rw [if_pos hlt, hmsg]
  · intro hge
    rw [if_neg hge]
  · intro h49
    have hlt : qa.pct_visible < 50 := by rw [h49]; norm_num
    rw [if_pos hlt, hmsg, h49, numberToString_49]
  · intro h50
    have hge : ¬ qa.pct_visible < 50 := by rw [h50]; norm_num
    rw [if_neg hge]

theorem quality_gate_threshold_witness :
    (botArchiveTask ⟨[], 5⟩ ∅ (calmWorld 200 49) [104, 58, 47] []).ending =
        .threw "[❌] Task completed with problems, got AI QA score of 49%!  "
    ∧ (botArchiveTask ⟨[], 5⟩ ∅ (calmWorld 200 50) [104, 58, 47] []).ending = .returned .true :=
  ⟨(quality_gate_threshold ⟨[], 5⟩ ∅ (calmWorld 200 49) [104, 58, 47] []
      ⟨49, [], none, none, none, none, none⟩ rfl (by decide)).2.2.2.1 rfl,
   (quality_gate_threshold ⟨[], 5⟩ ∅ (calmWorld 200 50) [104, 58, 47] []
      ⟨50, [], none, none, none, none, none⟩ rfl (by decide)).2.2.2.2 rfl⟩

end ArchiveBox

/-! ## Best-effort batches -/

namespace ArchiveBox

open Run

theorem rejectedReasons_eq_filterMap (results : List Settled) :
    rejectedReasons results = results.filterMap reasonOf := by
  induction results with
  | nil => rfl
  | cons r rs ih =>
    unfold rejectedReasons at ih ⊢
    cases r <;> simp [List.filter_cons, reasonOf, ih]

theorem fulfilled_add_rejected (results : List Settled) :
    (results.filter (fun r => decide (r = .fulfilled))).length
      + (results.filterMap reasonOf).length = results.length := by
  induction results with
  | nil => rfl
  | cons r rs ih =>
    cases r <;> simp [List.filter_cons, reasonOf] <;> omega

theorem pass_trace {α β : Type} {m : Run α} {k : α → Run β} {e : Event} (hm : e ∉ m.trace)
    (h : e ∈ (m.andThen k).trace) :
    ∃ a, m.flow = .next a ∧ e ∈ (k a).trace
      ∧ (m.andThen k).trace = m.trace ++ (k a).trace
      ∧ (m.andThen k).flow = (k a).flow := by
  rcases mem_andThen.mp h with h | ⟨a, ha, h⟩
  · exact absurd h hm
  · exact ⟨a, ha, h, by rw [andThen_of_next ha], by rw [andThen_flow, ha]⟩

theorem pagePreparation_reports (w : World) :
    (pagePreparation w).trace =
      pageSetupUnits.map Event.invoke ++ batchReport .pageSetup (pageSetupUnits.map w.outcome) := by
  rw [pagePreparation_trace, rejectedReasons_eq_filterMap]
  rfl

theorem postLoadSettling_reports (w : World) (p : Settled) :
    (postLoadSettling w p).trace =
      [.invoke .bringToFront, .invoke .waitForNetworkIdle]
        ++ batchReport .pageLoad [p, w.outcome .bringToFront, w.outcome .waitForNetworkIdle] := by
  rw [postLoadSettling_trace, rejectedReasons_eq_filterMap]
  rfl

theorem navigation_trace_head (w : World) (url : JSString) :
    ∃ rest, (navigation w url).trace =
      [.banner 2, .logNavigation url, .invoke .startScreenrecording] ++ rest := by
  unfold navigation
  simp only [bind_eq, Run.andThen, emit, invoke]
  exact ⟨_, rfl⟩

theorem navigation_trace_settled (w : World) (url : JSString)
    (h : Event.invoke .bringToFront ∈ (navigation w url).trace) :
    ∃ r, (navigation w url).trace =
        [.banner 2, .logNavigation url, .invoke .startScreenrecording, .invoke .pageGoto]
          ++ (postLoadSettling w (w.outcome .startScreenrecording)).trace
          ++ (checkResponse w r).trace
      ∧ (navigation w url).flow = (checkResponse w r).flow := by
  unfold navigation at h ⊢
  rcases hc : rejectsUnhandled w .startScreenrecording (w.outcome .startScreenrecording)
      .pageGoto with _ | reason
  · rcases hg : w.goto with reason | r
    · exfalso
      simp [Run.andThen, emit, invoke, suspendWith, hc, settleNav, hg, throwReason,
        Run.unit] at h
    · refine ⟨r, ?_, ?_⟩ <;>
        simp [Run.andThen, emit, invoke, suspendWith, hc, settleNav, hg, Run.unit,
          postLoadSettling_flow]
  · exfalso
    simp [Run.andThen, emit, invoke, suspendWith, hc, endProcess] at h

theorem parallelExtraction_launched (w : World) (p : Settled)
    (h : Event.invoke .saveTitle ∈ (parallelExtraction w p).trace) :
    (parallelExtraction w p).trace =
        [.banner 4, .invoke .inlineShadowDOM] ++ extractionUnits.map Event.invoke
      ∧ (parallelExtraction w p).flow =
          match rejectsUnhandled w .saveScreenrecording p .extractionBatch with
          | some reason => .crash reason
          | none => .next (extractionUnits.map w.outcome) := by
  unfold parallelExtraction extractionBatch callHolding at h ⊢
  rcases hc : rejectsUnhandled w .saveScreenrecording p .inlineShadowDOM with _ | reason
  · rcases ho : w.outcome .inlineShadowDOM with _ | reason
    · rcases hb : rejectsUnhandled w .saveScreenrecording p .extractionBatch with _ | reason
      · constructor <;>
          simp [Run.andThen, emit, invoke, suspendWith, hc, hb, ho, awaitSettled, Run.unit,
            invokeAll_flow, invokeAll_trace, allSettled]
      · constructor <;>
          simp [Run.andThen, emit, invoke, suspendWith, hc, hb, ho, awaitSettled, Run.unit,
            invokeAll_flow, invokeAll_trace, allSettled, endProcess]
    · exfalso
      simp [Run.andThen, emit, invoke, suspendWith, hc, ho, awaitSettled, Run.unit] at h
  · exfalso
    simp [Run.andThen, emit, invoke, suspendWith, hc, endProcess] at h

theorem backgroundExtraction_fulfilled (w : World) (p : Settled) (results : List Settled)
    (hm : w.outcome .saveMetrics = .fulfilled) :
    ∃ rest, (backgroundExtraction w p results).trace =
      .invoke .saveSinglefile :: .invoke .saveMetrics ::
        (batchReport .archiving results ++ .logFinished :: rest) := by
  unfold backgroundExtraction
  simp only [bind_eq]
  rw [andThen_of_next (a := w.outcome .saveSinglefile) rfl]
  simp only
  rw [andThen_of_next ((call_flow_next_iff w _ ()).mpr hm)]
  simp only
  rw [andThen_of_next (warnIfRejected_flow _ _)]
  simp only
  rw [andThen_of_next (a := ()) rfl]
  simp only [call_trace, warnIfRejected_trace, rejectedReasons_eq_filterMap, invoke, emit]
  exact ⟨_, rfl⟩

theorem backgroundExtraction_rejected (w : World) (p : Settled) (results : List Settled)
    (reason : String) (hm : w.outcome .saveMetrics = .rejected reason) :
    (backgroundExtraction w p results).trace = [.invoke .saveSinglefile, .invoke .saveMetrics]
      ∧ (backgroundExtraction w p results).flow = .raise reason := by
  have hflow : (call w .saveMetrics).flow = .raise reason := by
    rw [call_flow, hm]
  unfold backgroundExtraction
  simp only [bind_eq]
  rw [andThen_of_next (a := w.outcome .saveSinglefile) rfl]
  simp only
  rw [andThen_of_raise hflow]
  simp [call_trace, invoke]

theorem verdict_invokes (w : World) (S : List Fn) (h : Fn.readFileAIQA ∈ S) :
    (verdict w).Invokes S := by
  unfold verdict
  simp only [bind_eq]
  refine invokes_andThen (invokes_emit S _ (fun g hg => by cases hg; exact h)) (fun _ => ?_)
  cases w.qa with
  | error e => exact invokes_throwReason S _
  | ok qa =>
    simp only
    unfold qualityGate
    split
    · exact invokes_throwReason S _
    · simp only [bind_eq]
      exact invokes_andThen (invokes_emit S _ (fun g hg => by cases hg)) (fun _ =>
        invokes_andThen (invokes_emit S _ (fun g hg => by cases hg)) (fun _ =>
          invokes_returnValue S _))

theorem behaviorEmulation_trace_head (w : World) :
    ∃ rest, (behaviorEmulation w).trace = .invoke .jiggleMouse :: rest := by
  unfold behaviorEmulation
  simp only [bind_eq]
  obtain ⟨rest, h⟩ := andThen_trace_extends (call w .jiggleMouse)
    (fun _ => (call w .solveCaptchas).andThen fun _ => (call w .blockRedirects).andThen
      fun _ => (call w .scrollDown).andThen fun _ => call w .submitForm)
  rw [call_trace] at h
  exact ⟨rest, h⟩

theorem lift_segment {α β : Type} {m : Run α} {k : α → Run β} {a : α} (hm : m.flow = .next a)
    (seg : List Event) (P : List Event → Flow β → Prop)
    (h : ∃ before after, (k a).trace = before ++ seg ++ after ∧ P after (k a).flow) :
    ∃ before after, (m.andThen k).trace = before ++ seg ++ after
      ∧ P after (m.andThen k).flow := by
  obtain ⟨b, c, ht, hp⟩ := h
  refine ⟨m.trace ++ b, c, ?_, ?_⟩
  · rw [andThen_of_next hm]
    simp [ht]
  · rw [andThen_flow, hm]
    exact hp

theorem closing_invokes (w : World) (p : Settled) (results : List Settled) :
    ((backgroundExtraction w p results).andThen fun _ =>
      (wrapUp w).andThen fun _ => verdict w).Invokes (closingFns ++ [.readFileAIQA]) :=
  invokes_andThen (backgroundExtraction_invokes w p results _ (by decide)) (fun _ =>
    invokes_andThen (wrapUp_invokes w _ (by decide)) (fun _ =>
      verdict_invokes w _ (by decide)))

theorem afterNavigation_invokes (w : World) :
    ((behaviorEmulation w).andThen fun _ =>
      (metadataFreeze w).andThen fun _ =>
        (synchronousCapture w).andThen fun p =>
          (parallelExtraction w p).andThen fun results =>
            (backgroundExtraction w p results).andThen fun _ =>
              (wrapUp w).andThen fun _ => verdict w).Invokes fromBehaviorsOn :=
  invokes_andThen (behaviorEmulation_invokes w _ (by decide)) (fun _ =>
    invokes_andThen (metadataFreeze_invokes w _ (by decide)) (fun _ =>
      invokes_andThen (synchronousCapture_invokes w _ (by decide)) (fun p =>
        invokes_andThen (parallelExtraction_invokes w p _ (by decide)) (fun results =>
          invokes_andThen (backgroundExtraction_invokes w p results _ (by decide)) (fun _ =>
            invokes_andThen (wrapUp_invokes w _ (by decide)) (fun _ =>
              verdict_invokes w _ (by decide)))))))

theorem archiveAdmitted_pageSetup (w : World) (url : JSString)
    (h : Event.invoke .startMetadataRecording ∈ (archiveAdmitted w url).trace) :
    ∃ before after, (archiveAdmitted w url).trace =
      before ++ (pageSetupUnits.map Event.invoke
        ++ batchReport .pageSetup (pageSetupUnits.map w.outcome)
        ++ [.banner 2, .logNavigation url, .invoke .startScreenrecording]) ++ after
      ∧ True := by
  unfold archiveAdmitted at h ⊢
  simp only [bind_eq] at h ⊢
  obtain ⟨_, hss, _, _⟩ :=
    pass (not_invokes (sessionSetup_invokes w sessionFns (fun _ h => h)) (by decide)) h
  refine lift_segment hss _ (fun _ _ => True) ?_
  rw [andThen_of_next (pagePreparation_flow w)]
  obtain ⟨rest, hrest⟩ := andThen_trace_extends (navigation w url) (fun _ =>
    (behaviorEmulation w).andThen fun _ =>
      (metadataFreeze w).andThen fun _ =>
        (synchronousCapture w).andThen fun p =>
          (parallelExtraction w p).andThen fun results =>
            (backgroundExtraction w p results).andThen fun _ =>
              (wrapUp w).andThen fun _ => verdict w)
  obtain ⟨rest', hhead⟩ := navigation_trace_head w url
  refine ⟨[], rest' ++ rest, ?_, trivial⟩
  simp only
  rw [hrest, hhead, pagePreparation_reports]
  simp

theorem archiveAdmitted_pageLoad (w : World) (url : JSString)
    (h : Event.invoke .bringToFront ∈ (archiveAdmitted w url).trace) :
    ∃ before after, (archiveAdmitted w url).trace =
      before ++ ([.invoke .bringToFront, .invoke .waitForNetworkIdle]
        ++ batchReport .pageLoad [w.outcome .startScreenrecording, w.outcome .bringToFront,
            w.outcome .waitForNetworkIdle]) ++ after
      ∧ ((∃ s, primaryStatus w = some s ∧ s ≠ 429) → Event.invoke .jiggleMouse ∈ after) := by
  unfold archiveAdmitted at h ⊢
  simp only [bind_eq] at h ⊢
  obtain ⟨_, hss, h, _⟩ :=
    pass (not_invokes (sessionSetup_invokes w sessionFns (fun _ h => h)) (by decide)) h
  refine lift_segment hss _
    (fun after _ => (∃ s, primaryStatus w = some s ∧ s ≠ 429) → Event.invoke .jiggleMouse ∈ after)
    ?_
  obtain ⟨_, hpp, h, _⟩ :=
    pass (not_invokes (pagePreparation_invokes w pageSetupUnits (fun _ h => h)) (by decide)) h
  refine lift_segment hpp _
    (fun after _ => (∃ s, primaryStatus w = some s ∧ s ≠ 429) → Event.invoke .jiggleMouse ∈ after)
    ?_
  have hnav : Event.invoke .bringToFront ∈ (navigation w url).trace := by
    rcases mem_andThen.mp h with h | ⟨_, _, h⟩
    · exact h
    · exact absurd (afterNavigation_invokes w _ h) (by decide)
  obtain ⟨r, htrace, _⟩ := navigation_trace_settled w url hnav
  by_cases hok : ∃ s, primaryStatus w = some s ∧ s ≠ 429
  · have hflow := (navigation_flow_next_iff w url ()).mpr hok
    rw [andThen_of_next hflow]
    obtain ⟨rest, hrest⟩ := behaviorEmulation_trace_head w
    obtain ⟨rest', hrest'⟩ := andThen_trace_extends (behaviorEmulation w) (fun _ =>
      (metadataFreeze w).andThen fun _ =>
        (synchronousCapture w).andThen fun p =>
          (parallelExtraction w p).andThen fun results =>
            (backgroundExtraction w p results).andThen fun _ =>
              (wrapUp w).andThen fun _ => verdict w)
    refine ⟨[.banner 2, .logNavigation url, .invoke .startScreenrecording, .invoke .pageGoto],
      (checkResponse w r).trace ++ (.invoke .jiggleMouse :: rest ++ rest'), ?_, fun _ => ?_⟩
    · simp only
      rw [hrest', hrest, htrace, postLoadSettling_reports]
      simp
    · simp
  · obtain ⟨rest, hrest⟩ := andThen_trace_extends (navigation w url) (fun _ =>
      (behaviorEmulation w).andThen fun _ =>
        (metadataFreeze w).andThen fun _ =>
          (synchronousCapture w).andThen fun p =>
            (parallelExtraction w p).andThen fun results =>
              (backgroundExtraction w p results).andThen fun _ =>
                (wrapUp w).andThen fun _ => verdict w)
    refine ⟨[.banner 2, .logNavigation url, .invoke .startScreenrecording, .invoke .pageGoto],
      (checkResponse w r).trace ++ rest, ?_, fun h' => absurd h' hok⟩
    rw [hrest, htrace, postLoadSettling_reports]
    simp

theorem archiveAdmitted_extraction (w : World) (url : JSString)
    (h : Event.invoke .saveTitle ∈ (archiveAdmitted w url).trace) :
    ∃ before after, (archiveAdmitted w url).trace =
      before ++ extractionUnits.map Event.invoke ++ after
      ∧ ((∀ reason, (archiveAdmitted w url).flow.toEnding ≠ .crashed reason) →
          ∃ rest, after = .invoke .saveSinglefile :: .invoke .saveMetrics :: rest
            ∧ (w.outcome .saveMetrics = .fulfilled →
                ∃ rest', rest = batchReport .archiving (extractionUnits.map w.outcome)
                  ++ .logFinished :: rest')
            ∧ (∀ reason, w.outcome .saveMetrics = .rejected reason →
                rest = [] ∧ (archiveAdmitted w url).flow.toEnding = .threw reason)) := by
  unfold archiveAdmitted at h ⊢
  simp only [bind_eq] at h ⊢
  let P : List Event → Flow Unit → Prop := fun after f =>
    (∀ reason, f.toEnding ≠ .crashed reason) →
      ∃ rest, after = .invoke .saveSinglefile :: .invoke .saveMetrics :: rest
        ∧ (w.outcome .saveMetrics = .fulfilled →
            ∃ rest', rest = batchReport .archiving (extractionUnits.map w.outcome)
              ++ .logFinished :: rest')
        ∧ (∀ reason, w.outcome .saveMetrics = .rejected reason →
            rest = [] ∧ f.toEnding = .threw reason)
  obtain ⟨_, h1, h, _⟩ :=
    pass (not_invokes (sessionSetup_invokes w sessionFns (fun _ h => h)) (by decide)) h
  refine lift_segment h1 _ P ?_
  obtain ⟨_, h2, h, _⟩ :=
    pass (not_invokes (pagePreparation_invokes w pageSetupUnits (fun _ h => h)) (by decide)) h
  refine lift_segment h2 _ P ?_
  obtain ⟨_, h3, h, _⟩ :=
    pass (not_invokes (navigation_invokes w url navigationFns (fun _ h => h)) (by decide)) h
  refine lift_segment h3 _ P ?_
  obtain ⟨_, h4, h, _⟩ :=
    pass (not_invokes (behaviorEmulation_invokes w behaviorFns (fun _ h => h)) (by decide)) h
  refine lift_segment h4 _ P ?_
  obtain ⟨_, h5, h, _⟩ :=
    pass (not_invokes (metadataFreeze_invokes w [.stopMetadataRecording] (by decide))
      (by decide)) h
  refine lift_segment h5 _ P ?_
  obtain ⟨p, h6, h, _⟩ :=
    pass (not_invokes (synchronousCapture_invokes w captureFns (fun _ h => h)) (by decide)) h
  refine lift_segment h6 _ P ?_
  have hpe : Event.invoke .saveTitle ∈ (parallelExtraction w p).trace := by
    rcases mem_andThen.mp h with h | ⟨_, _, h⟩
    · exact h
    · exact absurd (closing_invokes w p _ _ h) (by decide)
  obtain ⟨tpe, fpe⟩ := parallelExtraction_launched w p hpe
  rcases hb : rejectsUnhandled w .saveScreenrecording p .extractionBatch with _ | reason
  · rw [hb] at fpe
    rw [andThen_of_next fpe]
    refine ⟨[.banner 4, .invoke .inlineShadowDOM], _, by rw [tpe], fun _ => ?_⟩
    simp only
    rcases hm : w.outcome .saveMetrics with _ | reason
    · obtain ⟨rest, hrest⟩ := backgroundExtraction_fulfilled w p (extractionUnits.map w.outcome) hm
      obtain ⟨rest', hrest'⟩ := andThen_trace_extends
        (backgroundExtraction w p (extractionUnits.map w.outcome))
        (fun _ => (wrapUp w).andThen fun _ => verdict w)
      refine ⟨_, by rw [hrest', hrest]; rfl, fun _ => ⟨rest ++ rest', by simp⟩,
        fun reason hr => ?_⟩
      cases hr
    · obtain ⟨htr, hfl⟩ := backgroundExtraction_rejected w p (extractionUnits.map w.outcome)
        reason hm
      rw [andThen_of_raise hfl, htr]
      refine ⟨[], rfl, fun hf => ?_, fun reason' hr => ?_⟩
      · cases hf
      · cases hr
        exact ⟨rfl, rfl⟩
  · rw [hb] at fpe
    rw [andThen_of_crash fpe]
    exact ⟨[.banner 4, .invoke .inlineShadowDOM], [], by simp [tpe],
      fun hno => absurd rfl (hno reason)⟩

/-- C6 as stated fails. A unit of the post-load batch can end the task: when the promise of
`startScreenrecording`, created before `await page.goto`, rejects while `page.goto` is pending
and the host ends the process on unhandled rejections, the call ends there, the batch is
never reached and no later phase starts. And a rejected unit of the extraction batch goes
unreported when `saveMetrics`, awaited before the report, rejects. -/
theorem batch_unit_rejection_not_always_tolerated :
    earlyRejectionWorld.outcome .startScreenrecording = .rejected "recorder failed"
    ∧ (botArchiveTask ⟨[], 5⟩ ∅ earlyRejectionWorld [104, 58, 47] []).ending
        = .crashed "recorder failed"
    ∧ (botArchiveTask ⟨[], 5⟩ ∅ earlyRejectionWorld [104, 58, 47] []).trace.getLast?
        = some (.invoke .pageGoto)
    ∧ Event.invoke .bringToFront ∉
        (botArchiveTask ⟨[], 5⟩ ∅ earlyRejectionWorld [104, 58, 47] []).trace
    ∧ Event.invoke .jiggleMouse ∉
        (botArchiveTask ⟨[], 5⟩ ∅ earlyRejectionWorld [104, 58, 47] []).trace
    ∧ (oneFailurePerBatch (.rejected "metrics failed")).outcome .saveSSL
        = .rejected "no certificate"
    ∧ Event.invoke .saveSSL ∈
        (botArchiveTask ⟨[], 5⟩ ∅ (oneFailurePerBatch (.rejected "metrics failed"))
          [104, 58, 47] []).trace
    ∧ Event.warnPartialFailures .archiving ["no certificate"] ∉
        (botArchiveTask ⟨[], 5⟩ ∅ (oneFailurePerBatch (.rejected "metrics failed"))
          [104, 58, 47] []).trace
    ∧ (botArchiveTask ⟨[], 5⟩ ∅ (oneFailurePerBatch (.rejected "metrics failed"))
          [104, 58, 47] []).ending = .threw "metrics failed" := by
  decide

/-- C6 amended: every best-effort batch that `botArchiveTask` reaches launches its units in
array order and yields one outcome per unit in that order; the list of rejected reasons is
exactly the reasons of the rejected units in that order, fulfilled and rejected outcomes adding
up to the number of units; and the batch never raises. Page preparation is followed by its
report and by the start of navigation; post-load settling is followed by its report and,
when the primary response is not a 429, by behaviour emulation; the extraction units are
followed, unless the process is ended by an unhandled rejection, by `saveSinglefile` and
`saveMetrics`, and the report of the extraction batch is printed after them exactly when
`saveMetrics` fulfils (when it rejects, the task raises with nothing reported). -/
theorem reached_batches_settle_and_continue (cfg : Config) (reg : Registry) (w : World)
    (url data : JSString) :
    -- one outcome per unit, in launch order
    (∀ units : List Fn,
        (invokeAll w units).flow = .next (units.map w.outcome)
        ∧ (invokeAll w units).trace = units.map Event.invoke)
    -- the rejected reasons, and the count of fulfilled and rejected outcomes
    ∧ (∀ results : List Settled,
        rejectedReasons results = results.filterMap reasonOf
        ∧ (results.filter (fun r => decide (r = .fulfilled))).length
            + (rejectedReasons results).length = results.length)
    -- page preparation
    ∧ (Event.invoke .startMetadataRecording ∈ (botArchiveTask cfg reg w url data).trace →
        ∃ before after, (botArchiveTask cfg reg w url data).trace =
          before ++ (pageSetupUnits.map Event.invoke
            ++ batchReport .pageSetup (pageSetupUnits.map w.outcome)
            ++ [.banner 2, .logNavigation (effectiveUrl url data),
                .invoke .startScreenrecording]) ++ after)
    -- post-load settling
    ∧ (Event.invoke .bringToFront ∈ (botArchiveTask cfg reg w url data).trace →
        ∃ before after, (botArchiveTask cfg reg w url data).trace =
          before ++ ([.invoke .bringToFront, .invoke .waitForNetworkIdle]
            ++ batchReport .pageLoad [w.outcome .startScreenrecording,
                w.outcome .bringToFront, w.outcome .waitForNetworkIdle]) ++ after
          ∧ ((∃ s, primaryStatus w = some s ∧ s ≠ 429) → Event.invoke .jiggleMouse ∈ after))
    -- parallel extraction
    ∧ (Event.invoke .saveTitle ∈ (botArchiveTask cfg reg w url data).trace →
        ∃ before after, (botArchiveTask cfg reg w url data).trace =
          before ++ extractionUnits.map Event.invoke ++ after
          ∧ ((∀ reason, (botArchiveTask cfg reg w url data).ending ≠ .crashed reason) →
              ∃ rest, after = .invoke .saveSinglefile :: .invoke .saveMetrics :: rest
                ∧ (w.outcome .saveMetrics = .fulfilled →
                    ∃ rest', rest = batchReport .archiving (extractionUnits.map w.outcome)
                      ++ .logFinished :: rest')
                ∧ (∀ reason, w.outcome .saveMetrics = .rejected reason →
                    rest = [] ∧ (botArchiveTask cfg reg w url data).ending = .threw reason))) := by
  refine ⟨fun units => ⟨invokeAll_flow w units, invokeAll_trace w units⟩,
    fun results => ⟨rejectedReasons_eq_filterMap results, ?_⟩, fun h => ?_, fun h => ?_,
    fun h => ?_⟩
  · rw [rejectedReasons_eq_filterMap]
    exact fulfilled_add_rejected results
  · have hcase := invoke_mem_trace cfg reg w url data _ h
    rw [hcase] at h ⊢
    obtain ⟨before, after, ht, _⟩ := archiveAdmitted_pageSetup w _ h
    exact ⟨before, after, ht⟩
  · have hcase := invoke_mem_trace cfg reg w url data _ h
    rw [hcase] at h ⊢
    exact archiveAdmitted_pageLoad w _ h
  · have hcase := invoke_mem_trace cfg reg w url data _ h
    rw [hcase] at h ⊢
    exact archiveAdmitted_extraction w _ h

theorem reached_batches_settle_and_continue_witness :
    Event.invoke .saveTitle ∈
        (botArchiveTask ⟨[], 5⟩ ∅ (oneFailurePerBatch .fulfilled) [104, 58, 47] []).trace
    ∧ ∃ before after,
        (botArchiveTask ⟨[], 5⟩ ∅ (oneFailurePerBatch .fulfilled) [104, 58, 47] []).trace =
          before ++ ([.invoke .bringToFront, .invoke .waitForNetworkIdle]
            ++ batchReport .pageLoad [(oneFailurePerBatch .fulfilled).outcome .startScreenrecording,
                (oneFailurePerBatch .fulfilled).outcome .bringToFront,
                (oneFailurePerBatch .fulfilled).outcome .waitForNetworkIdle]) ++ after
          ∧ ((∃ s, primaryStatus (oneFailurePerBatch .fulfilled) = some s ∧ s ≠ 429) →
              Event.invoke .jiggleMouse ∈ after) :=
  ⟨by decide,
   (reached_batches_settle_and_continue ⟨[], 5⟩ ∅ (oneFailurePerBatch .fulfilled)
      [104, 58, 47] []).2.2.2.1 (by decide)⟩

/-! ## Registration is permanent -/

/-- C10: a target admitted by `botArchiveTask` has its truncated key in `ALREADY_ARCHIVED`
when the call ends, however it ends (the call does not exit the process); no call removes a
key; hence after any further tasks of the same worker process, a call for a target with the
same truncated key returns `null` without invoking anything and leaves the registry as it
is. -/
theorem admitted_target_stays_registered (cfg : Config) (reg : Registry) (w : World)
    (url data : JSString) (hskip : ¬ shouldSkip cfg reg url data)
    (hquota : ¬ cfg.TASKS_PER_RUN_LIMIT < (insert (sliceKey (effectiveUrl url data)) reg).card)
    (later : List (World × JSString × JSString)) (reg' : Registry)
    (hlater : runTasks cfg (botArchiveTask cfg reg w url data).registry later = some reg')
    (w' : World) (url' data' : JSString)
    (hkey : sliceKey (effectiveUrl url' data') = sliceKey (effectiveUrl url data)) :
    sliceKey (effectiveUrl url data) ∈ (botArchiveTask cfg reg w url data).registry
    ∧ (∀ code, (botArchiveTask cfg reg w url data).ending ≠ .exited code)
    ∧ (∀ (cfg₂ : Config) (reg₂ : Registry) (w₂ : World) (url₂ data₂ : JSString),
        reg₂ ⊆ (botArchiveTask cfg₂ reg₂ w₂ url₂ data₂).registry)
    ∧ sliceKey (effectiveUrl url data) ∈ reg'
    ∧ (botArchiveTask cfg reg' w' url' data').ending = .returned .null
    ∧ (botArchiveTask cfg reg' w' url' data').trace = []
    ∧ (botArchiveTask cfg reg' w' url' data').registry = reg' := by
  have hin : sliceKey (effectiveUrl url data) ∈ (botArchiveTask cfg reg w url data).registry := by
    rcases botArchiveTask_cases cfg reg w url data with ⟨hs, _⟩ | ⟨_, _, h⟩ | ⟨_, _, h⟩
    · exact absurd hs hskip
    · rw [h]; exact Finset.mem_insert_self _ _
    · rw [h]; exact Finset.mem_insert_self _ _
  have hend : ∀ code, (botArchiveTask cfg reg w url data).ending ≠ .exited code := by
    intro code
    rcases botArchiveTask_cases cfg reg w url data with ⟨hs, _⟩ | ⟨_, hq, _⟩ | ⟨_, _, h⟩
    · exact absurd hs hskip
    · exact absurd hq hquota
    · rw [h]; exact toEnding_ne_exited _ code
  have hin' : sliceKey (effectiveUrl url data) ∈ reg' := runTasks_grows cfg later _ _ hlater hin
  have hskip' : shouldSkip cfg reg' url' data' := Or.inr (hkey ▸ hin')
  rcases botArchiveTask_cases cfg reg' w' url' data' with ⟨_, h⟩ | ⟨hs, _, _⟩ | ⟨hs, _, _⟩
  · rw [h]
    exact ⟨hin, hend, fun cfg₂ reg₂ w₂ url₂ data₂ => registry_grows cfg₂ reg₂ w₂ url₂ data₂,
      hin', rfl, rfl, rfl⟩
  · exact absurd hskip' hs
  · exact absurd hskip' hs

theorem admitted_target_stays_registered_witness :
    (botArchiveTask ⟨[], 5⟩ ∅ (calmWorld 429 80) [104, 58, 47] []).ending
        = .threw rateLimitMessage
    ∧ (botArchiveTask ⟨[], 5⟩ (insert [104, 58, 48] (insert [104, 58, 47] ∅)) (calmWorld 200 80)
        [] [104, 58, 47]).ending = .returned .null :=
  ⟨by decide,
   (admitted_target_stays_registered ⟨[], 5⟩ ∅ (calmWorld 429 80) [104, 58, 47] []
      (by decide) (by decide) [(calmWorld 200 49, [104, 58, 48], [])]
      (insert [104, 58, 48] (insert [104, 58, 47] ∅)) rfl (calmWorld 200 80) [] [104, 58, 47]
      (by decide)).2.2.2.2.1⟩

end ArchiveBox

/-! ## The screen-recorder controller -/

namespace ArchiveBox

theorem onBehaviorsFinished_counts (SCREENRECORDING_SAVE_GIF : Bool) (hw : HandlerWorld) (c : Controller) :
    startCount (onBehaviorsFinished SCREENRECORDING_SAVE_GIF hw c).1 = startCount c
    ∧ constructCount (onBehaviorsFinished SCREENRECORDING_SAVE_GIF hw c).1 = constructCount c := by
  unfold onBehaviorsFinished
  cases c.recorder with
  | none => exact ⟨rfl, rfl⟩
  | some id =>
    simp only
    cases hw.stop with
    | rejected err => simp [startCount, constructCount, List.countP_append]
    | fulfilled =>
      cases SCREENRECORDING_SAVE_GIF with
      | false => simp [startCount, constructCount, List.countP_append]
      | true =>
        cases hw.spawn with
        | some err => simp [startCount, constructCount, List.countP_append]
        | none =>
          cases hw.blockUntilExists with
          | rejected err => simp [startCount, constructCount, List.countP_append]
          | fulfilled =>
            cases hw.durationBound <;> simp [startCount, constructCount, List.countP_append]

theorem onSetup_counts (hw : HandlerWorld) (c : Controller) :
    startCount (onSetup hw c).1 = startCount c + (if hw.construct.isNone then 1 else 0)
    ∧ constructCount (onSetup hw c).1
        = constructCount c + (if hw.construct.isNone then 1 else 0) := by
  unfold onSetup
  cases hw.construct with
  | some err => simp
  | none =>
    cases hw.start <;> simp [startCount, constructCount, List.countP_append]

theorem deliver_counts (SCREENRECORDING_SAVE_GIF : Bool) (c : Controller) (d : Delivery)
    (hc : c.stage ≠ .raised) :
    (deliver SCREENRECORDING_SAVE_GIF c d).stage ≠ .raised
    ∧ startCount (deliver SCREENRECORDING_SAVE_GIF c d) = startCount c + (if isEffectiveSetup d then 1 else 0)
    ∧ constructCount (deliver SCREENRECORDING_SAVE_GIF c d)
        = constructCount c + (if isEffectiveSetup d then 1 else 0) := by
  have hstage : ∀ hw, (onSetup hw c).1.stage = c.stage := by
    intro hw
    unfold onSetup
    cases hw.construct with
    | some err => rfl
    | none => cases hw.start <;> rfl
  have hstage' : ∀ hw, (onBehaviorsFinished SCREENRECORDING_SAVE_GIF hw c).1.stage = c.stage := by
    intro hw
    unfold onBehaviorsFinished
    cases c.recorder with
    | none => rfl
    | some id =>
      simp only
      cases hw.stop <;> cases SCREENRECORDING_SAVE_GIF <;> cases hw.spawn <;> cases hw.blockUntilExists <;>
        cases hw.durationBound <;> rfl
  obtain ⟨hs1, hs2⟩ := onSetup_counts d.world c
  obtain ⟨hb1, hb2⟩ := onBehaviorsFinished_counts SCREENRECORDING_SAVE_GIF d.world c
  unfold deliver isEffectiveSetup
  cases hsig : d.signal with
  | setup =>
    cases hst : c.stage with
    | raised => exact absurd hst hc
    | awaitingSetup =>
      refine ⟨by simp, ?_, ?_⟩
      · simpa [startCount] using hs1
      · simpa [constructCount] using hs2
    | awaitingBehaviorsStarted =>
      refine ⟨by simp [hstage, hst], ?_, ?_⟩
      · simpa using hs1
      · simpa using hs2
    | awaitingBehaviorsFinished =>
      refine ⟨by simp [hstage, hst], ?_, ?_⟩
      · simpa using hs1
      · simpa using hs2
    | returned =>
      refine ⟨by simp [hstage, hst], ?_, ?_⟩
      · simpa using hs1
      · simpa using hs2
  | BEHAVIORS_STARTED =>
    cases hst : c.stage <;> simp_all [startCount, constructCount]
  | BEHAVIORS_FINISHED =>
    cases hst : c.stage with
    | raised => exact absurd hst hc
    | awaitingSetup => simp [hst]
    | awaitingBehaviorsStarted => simp [hst]
    | awaitingBehaviorsFinished =>
      refine ⟨by simp, ?_, ?_⟩
      · simpa [startCount] using hb1
      · simpa [constructCount] using hb2
    | returned =>
      refine ⟨by simp [hstage', hst], ?_, ?_⟩
      · simpa using hb1
      · simpa using hb2
  | other name => simp [hc]

theorem deliverAll_counts (SCREENRECORDING_SAVE_GIF : Bool) (ds : List Delivery) :
    ∀ c : Controller, c.stage ≠ .raised →
      startCount (deliverAll SCREENRECORDING_SAVE_GIF c ds) = startCount c + (ds.filter isEffectiveSetup).length
      ∧ constructCount (deliverAll SCREENRECORDING_SAVE_GIF c ds)
          = constructCount c + (ds.filter isEffectiveSetup).length := by
  induction ds with
  | nil => intro c _; exact ⟨rfl, rfl⟩
  | cons d ds ih =>
    intro c hc
    obtain ⟨h1, h2, h3⟩ := deliver_counts SCREENRECORDING_SAVE_GIF c d hc
    obtain ⟨i1, i2⟩ := ih (deliver SCREENRECORDING_SAVE_GIF c d) h1
    unfold deliverAll at i1 i2 ⊢
    simp only [List.foldl_cons, List.filter_cons]
    rw [i1, i2, h2, h3]
    cases isEffectiveSetup d
    · simp
    · simp only [if_true, List.length_cons]
      omega

theorem deliverAll_raised (SCREENRECORDING_SAVE_GIF : Bool) (ds : List Delivery) :
    ∀ c : Controller, c.stage = .raised → deliverAll SCREENRECORDING_SAVE_GIF c ds = c := by
  induction ds with
  | nil => intro c _; rfl
  | cons d ds ih =>
    intro c hc
    have h : deliver SCREENRECORDING_SAVE_GIF c d = c := by
      unfold deliver
      cases d.signal <;> simp [hc]
    unfold deliverAll at ih ⊢
    rw [List.foldl_cons, h]
    exact ih c hc

theorem effective_le_setups (ds : List Delivery) :
    (ds.filter isEffectiveSetup).length ≤ (ds.filter isSetup).length := by
  rw [← List.countP_eq_length_filter, ← List.countP_eq_length_filter]
  apply List.countP_mono_left
  intro d _ h
  simp only [isEffectiveSetup, Bool.and_eq_true] at h
  exact h.1

/-- C7 as stated fails: when `'setup'` is delivered twice, two recorders are created and
`recorder.start` is invoked twice. -/
theorem recorder_started_twice_on_two_setups :
    ¬ (startCount (extract .fulfilled .fulfilled true
          [⟨.setup, calmHandlers⟩, ⟨.setup, calmHandlers⟩]) ≤ 1)
    ∧ ¬ (constructCount (extract .fulfilled .fulfilled true
          [⟨.setup, calmHandlers⟩, ⟨.setup, calmHandlers⟩]) ≤ 1) := by
  decide

/-- C7 amended: the transition to Recording occurs only in the `'setup'` listener and is not
gated: for every sequence of page signals, the number of recorders created and the number of
`recorder.start` invocations both equal the number of `'setup'` deliveries whose recorder
constructor does not throw (none when `extract` raised before registering the listener), so
they never exceed the number of `'setup'` deliveries, and are at most one when `'setup'` is
delivered at most once. -/
theorem recorder_started_once_per_setup (SCREENRECORDING_SAVE_GIF : Bool) (ds : List Delivery) :
    startCount (extract .fulfilled .fulfilled SCREENRECORDING_SAVE_GIF ds) = (ds.filter isEffectiveSetup).length
    ∧ constructCount (extract .fulfilled .fulfilled SCREENRECORDING_SAVE_GIF ds)
        = (ds.filter isEffectiveSetup).length
    ∧ (∀ p q : Settled,
        startCount (extract p q SCREENRECORDING_SAVE_GIF ds) ≤ (ds.filter isSetup).length
        ∧ constructCount (extract p q SCREENRECORDING_SAVE_GIF ds) ≤ (ds.filter isSetup).length)
    ∧ ((ds.filter isSetup).length ≤ 1 → ∀ p q : Settled,
        startCount (extract p q SCREENRECORDING_SAVE_GIF ds) ≤ 1
        ∧ constructCount (extract p q SCREENRECORDING_SAVE_GIF ds) ≤ 1) := by
  unfold extract
  have hgood := deliverAll_counts SCREENRECORDING_SAVE_GIF ds (extractStart .fulfilled .fulfilled)
    (by decide)
  have h0 : startCount (extractStart .fulfilled .fulfilled) = 0 := rfl
  have h0' : constructCount (extractStart .fulfilled .fulfilled) = 0 := rfl
  have hle := effective_le_setups ds
  have hall : ∀ p q : Settled,
      startCount (deliverAll SCREENRECORDING_SAVE_GIF (extractStart p q) ds) ≤ (ds.filter isSetup).length
      ∧ constructCount (deliverAll SCREENRECORDING_SAVE_GIF (extractStart p q) ds)
          ≤ (ds.filter isSetup).length := by
    intro p q
    have hz : startCount (extractStart p q) = 0 ∧ constructCount (extractStart p q) = 0 := by
      cases p <;> cases q <;> exact ⟨rfl, rfl⟩
    by_cases hr : (extractStart p q).stage = .raised
    · rw [deliverAll_raised SCREENRECORDING_SAVE_GIF ds _ hr]
      omega
    · obtain ⟨h1, h2⟩ := deliverAll_counts SCREENRECORDING_SAVE_GIF ds (extractStart p q) hr
      omega
  refine ⟨by omega, by omega, hall, fun hone p q => ?_⟩
  have := hall p q
  omega

theorem deliverAll_without_recorder (SCREENRECORDING_SAVE_GIF : Bool) (ds : List Delivery)
    (hds : ∀ d ∈ ds, d.signal = .BEHAVIORS_FINISHED) :
    ∀ c : Controller, c.recorder = none →
      (deliverAll SCREENRECORDING_SAVE_GIF c ds).actions = c.actions
      ∧ (deliverAll SCREENRECORDING_SAVE_GIF c ds).recorder = none
      ∧ (deliverAll SCREENRECORDING_SAVE_GIF c ds).created = c.created := by
  induction ds with
  | nil => intro c hc; exact ⟨rfl, hc, rfl⟩
  | cons d ds ih =>
    intro c hc
    have hd : d.signal = .BEHAVIORS_FINISHED := hds d (List.mem_cons_self d ds)
    have hstep : (deliver SCREENRECORDING_SAVE_GIF c d).actions = c.actions
        ∧ (deliver SCREENRECORDING_SAVE_GIF c d).recorder = none
        ∧ (deliver SCREENRECORDING_SAVE_GIF c d).created = c.created := by
      unfold deliver
      rw [hd]
      simp only [onBehaviorsFinished, hc]
      cases c.stage <;> simp [hc]
    obtain ⟨i1, i2, i3⟩ := ih (fun d' hd' => hds d' (List.mem_cons_of_mem d hd'))
      (deliver SCREENRECORDING_SAVE_GIF c d) hstep.2.1
    unfold deliverAll at i1 i2 i3 ⊢
    rw [List.foldl_cons]
    exact ⟨i1.trans hstep.1, i2, i3.trans hstep.2.2⟩

/-- C8: while `recorder` is `null`, the `'BEHAVIORS_FINISHED'` listener does nothing: its
promise fulfils and the controller is returned as it was (no `recorder.stop`, no transcoder,
no polling); and however many times the signal is delivered, the actions performed, the
variable `recorder` and the number of recorders stay as they were. -/
theorem stop_without_recorder_is_noop (SCREENRECORDING_SAVE_GIF : Bool) (c : Controller)
    (hnull : c.recorder = none) :
    (∀ hw : HandlerWorld, onBehaviorsFinished SCREENRECORDING_SAVE_GIF hw c = (c, .fulfilled))
    ∧ (∀ ds : List Delivery, (∀ d ∈ ds, d.signal = .BEHAVIORS_FINISHED) →
        (deliverAll SCREENRECORDING_SAVE_GIF c ds).actions = c.actions
        ∧ (deliverAll SCREENRECORDING_SAVE_GIF c ds).recorder = none
        ∧ (deliverAll SCREENRECORDING_SAVE_GIF c ds).created = c.created) := by
  refine ⟨fun hw => ?_, fun ds hds => deliverAll_without_recorder SCREENRECORDING_SAVE_GIF ds hds c hnull⟩
  unfold onBehaviorsFinished
  rw [hnull]

theorem stop_without_recorder_is_noop_witness :
    (extract .fulfilled .fulfilled true
        [⟨.setup, brokenRecorder⟩, ⟨.BEHAVIORS_STARTED, calmHandlers⟩]).recorder = none
    ∧ (deliverAll true
        (extract .fulfilled .fulfilled true
          [⟨.setup, brokenRecorder⟩, ⟨.BEHAVIORS_STARTED, calmHandlers⟩])
        [⟨.BEHAVIORS_FINISHED, calmHandlers⟩, ⟨.BEHAVIORS_FINISHED, calmHandlers⟩]).actions
      = [] :=
  ⟨by decide,
   ((stop_without_recorder_is_noop true
      (extract .fulfilled .fulfilled true
        [⟨.setup, brokenRecorder⟩, ⟨.BEHAVIORS_STARTED, calmHandlers⟩]) (by decide)).2
      [⟨.BEHAVIORS_FINISHED, calmHandlers⟩, ⟨.BEHAVIORS_FINISHED, calmHandlers⟩]
      (by decide)).1⟩

end ArchiveBox
